import Mathlib

/-! ODP pool manager on DPDK (`platform/linux-dpdk/odp_pool.c`)

A shallow embedding of the pool table, the sizing switch of `odp_pool_create`,
the cache-size loop and the DPDK object constructors, followed by theorems
about them.

Conventions of the embedding:

* C `uint32_t` / `unsigned` values are `Nat`; every operation that can wrap in C
  is reduced modulo `4294967296` (`2^32`) explicitly, `uint16_t` stores modulo
  `65536`, `size_t` arithmetic modulo `2^64`.
* Constants that come from headers outside the source file are fields of
  `Config`.
* A spin lock is a `Bool` (held or not); `LOCK` on a held lock never returns in
  a sequential run, which is the result `none` of `odp_pool_create`.
-/

namespace OdpPool

/-! ## Constants and types declared in headers -/

/-- Compile-time constants used by `odp_pool.c` and declared in ODP / DPDK headers. -/
structure Config where
  ODP_CONFIG_POOLS : Nat
  ODP_POOL_NAME_LEN : Nat
  ODP_CACHE_LINE_SIZE : Nat
  ODP_CONFIG_BUFFER_ALIGN_MIN : Nat
  ODP_CONFIG_BUFFER_ALIGN_MAX : Nat
  ODP_MAX_INLINE_BUF : Nat
  ODP_CONFIG_PACKET_HEADROOM : Nat
  ODP_CONFIG_PACKET_TAILROOM : Nat
  ODP_CONFIG_PACKET_SEG_LEN_MIN : Nat
  ODP_CONFIG_PACKET_SEG_LEN_MAX : Nat
  ODP_BUFFER_MAX_SEG : Nat
  RTE_MEMPOOL_CACHE_MAX_SIZE : Nat
  sizeof_odp_buffer_hdr_t : Nat
  sizeof_odp_packet_hdr_t : Nat
  sizeof_odp_timeout_hdr_t : Nat
  sizeof_mbuf_pool_ctor_arg : Nat
deriving DecidableEq

/-- The configuration of the spec's example scenarios (`headroom = 128`,
`tailroom = 0`, `SEG_LEN_MIN = 2048`, `CACHE_MAX = 512`), completed with the
usual ODP values for the constants the examples leave open. -/
def refConfig : Config where
  ODP_CONFIG_POOLS := 16
  ODP_POOL_NAME_LEN := 32
  ODP_CACHE_LINE_SIZE := 64
  ODP_CONFIG_BUFFER_ALIGN_MIN := 16
  ODP_CONFIG_BUFFER_ALIGN_MAX := 4096
  ODP_MAX_INLINE_BUF := 40
  ODP_CONFIG_PACKET_HEADROOM := 128
  ODP_CONFIG_PACKET_TAILROOM := 0
  ODP_CONFIG_PACKET_SEG_LEN_MIN := 2048
  ODP_CONFIG_PACKET_SEG_LEN_MAX := 65536
  ODP_BUFFER_MAX_SEG := 6
  RTE_MEMPOOL_CACHE_MAX_SIZE := 512
  sizeof_odp_buffer_hdr_t := 128
  sizeof_odp_packet_hdr_t := 192
  sizeof_odp_timeout_hdr_t := 128
  sizeof_mbuf_pool_ctor_arg := 16

/-- Pool handles are scalars. -/
abbrev odp_pool_t := Nat

/-- Modelled from the spec: `ODP_POOL_INVALID` is declared in `odp/pool.h`, which is
not part of the source tree; the spec only says that a reserved value stands for
"no pool". It is the all-ones 32-bit scalar here. -/
def ODP_POOL_INVALID : odp_pool_t := 4294967295

/-- Modelled from the spec: `pool_index_to_handle` is declared in
`odp_pool_internal.h` (not in the source tree); the spec says
"handle = index". -/
def pool_index_to_handle (i : Nat) : odp_pool_t := i

/-- Modelled from the spec: `pool_handle_to_index`, the O(1) inverse decode of
`pool_index_to_handle` (declared in `odp_pool_internal.h`). -/
def pool_handle_to_index (h : odp_pool_t) : Nat := h

/-- Modelled from the spec: the pool kinds `ODP_POOL_BUFFER`, `ODP_POOL_PACKET`,
`ODP_POOL_TIMEOUT` are enumerators of `odp/pool.h` (not in the source tree); only
their being pairwise distinct matters. -/
def ODP_POOL_BUFFER : Int := 1

/-- See `ODP_POOL_BUFFER`. -/
def ODP_POOL_PACKET : Int := 2

/-- See `ODP_POOL_BUFFER`. -/
def ODP_POOL_TIMEOUT : Int := 3

/-- The largest `uint16_t`. -/
def UINT16_MAX : Nat := 65535

/-- Member `buf` of `odp_pool_param_t`. -/
structure buf_param_t where
  num : Nat
  size : Nat
  align : Nat
deriving DecidableEq

/-- Member `pkt` of `odp_pool_param_t`. -/
structure pkt_param_t where
  num : Nat
  len : Nat
  seg_len : Nat
deriving DecidableEq

/-- Member `tmo` of `odp_pool_param_t`. -/
structure tmo_param_t where
  num : Nat
deriving DecidableEq

/-- The creation parameters `odp_pool_param_t`: the kind tag and the per-kind
members (the C type overlays the members in a union; they are kept side by side
here, and the code only reads the member selected by `type`). -/
structure odp_pool_param_t where
  type : Int
  buf : buf_param_t
  pkt : pkt_param_t
  tmo : tmo_param_t
deriving DecidableEq

/-- A Buffer request `{num, size, align}`. -/
def buffer_request (num size align : Nat) : odp_pool_param_t :=
  { type := ODP_POOL_BUFFER, buf := ⟨num, size, align⟩, pkt := ⟨0, 0, 0⟩, tmo := ⟨0⟩ }

/-- A Packet request `{num, len, seg_len}`. -/
def packet_request (num len seg_len : Nat) : odp_pool_param_t :=
  { type := ODP_POOL_PACKET, buf := ⟨0, 0, 0⟩, pkt := ⟨num, len, seg_len⟩, tmo := ⟨0⟩ }

/-- A Timeout request `{num}`. -/
def timeout_request (num : Nat) : odp_pool_param_t :=
  { type := ODP_POOL_TIMEOUT, buf := ⟨0, 0, 0⟩, pkt := ⟨0, 0, 0⟩, tmo := ⟨num⟩ }

/-- The all-zero parameters left in a slot by `memset`. -/
def zero_params : odp_pool_param_t :=
  { type := 0, buf := ⟨0, 0, 0⟩, pkt := ⟨0, 0, 0⟩, tmo := ⟨0⟩ }

/-! ## Alignment macros (`odp_align_internal.h`) -/

/-- Modelled from the spec: the macro `ODP_ALIGN_ROUNDUP(x, align)` is declared in
`odp_align_internal.h` (not in the source tree). The spec says "round up to a
multiple of `align`"; the ODP macro is `align * ((x + align - 1) / align)`,
evaluated here in C's unsigned 32-bit arithmetic (both the sum and the product
wrap modulo `2^32`). -/
def ODP_ALIGN_ROUNDUP (x align : Nat) : Nat :=
  (align * (((x + align + 4294967296 - 1) % 4294967296) / align)) % 4294967296

/-- Modelled from the spec: the macro `ODP_ALIGN_ROUNDDOWN_POWER_2(x, align)` is
declared in `odp_align_internal.h` (not in the source tree); it is
`x & (-align)` on `uint32_t`, the negation being two's complement. -/
def ODP_ALIGN_ROUNDDOWN_POWER_2 (x align : Nat) : Nat :=
  x &&& ((4294967296 - align % 4294967296) % 4294967296)

/-- Modelled from the spec: the macro `ODP_CACHE_LINE_SIZE_ROUNDUP(x)` is
`ODP_ALIGN_ROUNDUP(x, ODP_CACHE_LINE_SIZE)` (declared in `odp_align_internal.h`,
not in the source tree); it is applied to a `size_t`, so the arithmetic is
modulo `2^64`. -/
def ODP_CACHE_LINE_SIZE_ROUNDUP (cfg : Config) (x : Nat) : Nat :=
  (cfg.ODP_CACHE_LINE_SIZE *
    (((x + cfg.ODP_CACHE_LINE_SIZE + 18446744073709551616 - 1) % 18446744073709551616)
      / cfg.ODP_CACHE_LINE_SIZE)) % 18446744073709551616

/-! ## The sizing switch of `odp_pool_create` (lines 219-288) -/

/-- The alignment validation of lines 225-226:
`buf_align > ODP_CONFIG_BUFFER_ALIGN_MAX ||
 buf_align != ODP_ALIGN_ROUNDDOWN_POWER_2(buf_align, buf_align)`. -/
def buf_align_rejected (cfg : Config) (buf_align : Nat) : Bool :=
  decide (buf_align > cfg.ODP_CONFIG_BUFFER_ALIGN_MAX) ||
    decide (buf_align ≠ ODP_ALIGN_ROUNDDOWN_POWER_2 buf_align buf_align)

/-- The value of `buf_align` after lines 230-233 ("Set correct alignment based on
input request"). -/
def buf_align (cfg : Config) (align : Nat) : Nat :=
  if align = 0 then cfg.ODP_CACHE_LINE_SIZE
  else if align < cfg.ODP_CONFIG_BUFFER_ALIGN_MIN then cfg.ODP_CONFIG_BUFFER_ALIGN_MIN
  else align

/-- The value of `blk_size` of a Buffer request after lines 236-238 ("Optimize
small raw buffers"). -/
def buf_blk_size (cfg : Config) (size align : Nat) : Nat :=
  if size > cfg.ODP_MAX_INLINE_BUF ∨ align ≠ 0 then
    ODP_ALIGN_ROUNDUP size (buf_align cfg align)
  else size

/-- The value of `seg_len` after lines 251-254, before headroom and tailroom are
added: the effective segment length. -/
def pkt_seg_len_effective (cfg : Config) (seg_len : Nat) : Nat :=
  if seg_len = 0 then cfg.ODP_CONFIG_PACKET_SEG_LEN_MIN
  else if seg_len ≤ cfg.ODP_CONFIG_PACKET_SEG_LEN_MAX then seg_len
  else cfg.ODP_CONFIG_PACKET_SEG_LEN_MAX

/-- The value of `seg_len` after lines 256-258:
`ODP_ALIGN_ROUNDUP(headroom + seg_len + tailroom, ODP_CONFIG_BUFFER_ALIGN_MIN)`. -/
def pkt_seg_len (cfg : Config) (seg_len : Nat) : Nat :=
  ODP_ALIGN_ROUNDUP
    (cfg.ODP_CONFIG_PACKET_HEADROOM + pkt_seg_len_effective cfg seg_len
      + cfg.ODP_CONFIG_PACKET_TAILROOM)
    cfg.ODP_CONFIG_BUFFER_ALIGN_MIN

/-- The value of `blk_size` of a Packet request after lines 259-260. -/
def pkt_blk_size (cfg : Config) (len seg_len : Nat) : Nat :=
  if len ≤ pkt_seg_len cfg seg_len then pkt_seg_len cfg seg_len
  else ODP_ALIGN_ROUNDUP len (pkt_seg_len cfg seg_len)

/-- How the `switch (params->type)` of lines 219-288 ends. -/
inductive switch_result where
  /-- Those `return ODP_POOL_INVALID` of lines 227, 264 and of
  `CHECK_U16_OVERFLOW` (line 189): the function returns at once. -/
  | return_invalid
  /-- The `default` branch: `UNLOCK`, then `return ODP_POOL_INVALID`. -/
  | bad_type
  /-- A `break` with `hdr_size`, `mbp_ctor_arg.pkt.mbuf_data_room_size` and `num` set. -/
  | sized (hdr_size mbuf_data_room_size num : Nat)
deriving DecidableEq

/-- The `switch (params->type)` of lines 219-288. -/
def switch_params (cfg : Config) (params : odp_pool_param_t) : switch_result :=
  if params.type = ODP_POOL_BUFFER then
    if buf_align_rejected cfg params.buf.align then .return_invalid
    else if buf_blk_size cfg params.buf.size params.buf.align > UINT16_MAX then .return_invalid
    else .sized cfg.sizeof_odp_buffer_hdr_t
      (buf_blk_size cfg params.buf.size params.buf.align % 65536) params.buf.num
  else if params.type = ODP_POOL_PACKET then
    if pkt_blk_size cfg params.pkt.len params.pkt.seg_len / pkt_seg_len cfg params.pkt.seg_len
        > cfg.ODP_BUFFER_MAX_SEG then .return_invalid
    else if pkt_blk_size cfg params.pkt.len params.pkt.seg_len > UINT16_MAX then .return_invalid
    else .sized cfg.sizeof_odp_packet_hdr_t
      (pkt_blk_size cfg params.pkt.len params.pkt.seg_len % 65536) params.pkt.num
  else if params.type = ODP_POOL_TIMEOUT then
    .sized cfg.sizeof_odp_timeout_hdr_t 0 params.tmo.num
  else .bad_type

/-! ## The cache-size computation (lines 297-306) -/

/-- The `for` loop of lines 299-303 from the state `(j, cache_size)`:
`for (...; j < num / 2; ++j) if ((num % j) == 0) cache_size = num / j;`. -/
def cache_loop (num j c : Nat) : Nat :=
  if j < num / 2 then
    cache_loop num (j + 1) (if num % j = 0 then num / j else c)
  else c
termination_by num / 2 - j

/-- The value of `cache_size` after lines 297-306. -/
def cache_size (cfg : Config) (num : Nat) : Nat :=
  if num ≥ cfg.RTE_MEMPOOL_CACHE_MAX_SIZE then
    cache_loop num (num / cfg.RTE_MEMPOOL_CACHE_MAX_SIZE) cfg.RTE_MEMPOOL_CACHE_MAX_SIZE
  else num

/-! ## The DPDK constructors (lines 106-184) -/

/-- The constructor argument `struct mbuf_ctor_arg` (lines 106-110). -/
structure mbuf_ctor_arg where
  seg_buf_offset : Nat
  seg_buf_size : Nat
  type : Int
deriving DecidableEq

/-- The pool constructor argument `struct mbuf_pool_ctor_arg` (lines 112-115);
`mbuf_data_room_size` is the field of its member `pkt`. -/
structure mbuf_pool_ctor_arg where
  mbuf_data_room_size : Nat
  pool_hdl : odp_pool_t
deriving DecidableEq

/-- The two DPDK mbuf kinds written by the object constructor. -/
inductive rte_mbuf_type where
  | RTE_MBUF_CTRL
  | RTE_MBUF_PKT
deriving DecidableEq

/-- The fields of an object header (`rte_mbuf` followed by `odp_buffer_hdr_t`)
that `odp_dpdk_mbuf_ctor` writes. Addresses are offsets from the start of the
block. -/
structure odp_buffer_hdr_t where
  buf_addr : Nat
  buf_len : Nat
  mbuf_type : rte_mbuf_type
  data : Nat
  nb_segs : Nat
  in_port : Nat
  ol_flags : Nat
  index : Nat
  pool_hdl : odp_pool_t
  type : Int
deriving DecidableEq

/-- The arena object `struct rte_mempool`, as far as `odp_pool.c` reads or writes
it: its name, geometry, private area and constructed blocks. -/
structure rte_mempool where
  name : Option String
  n : Nat
  elt_size : Nat
  cache_size : Nat
  private_data_size : Nat
  priv : mbuf_pool_ctor_arg
  elts : List odp_buffer_hdr_t
deriving DecidableEq

/-- The pool constructor `odp_dpdk_mbuf_pool_ctor` (lines 117-131): copy the
argument into the private area unless that area is too small. -/
def odp_dpdk_mbuf_pool_ctor (cfg : Config) (mp : rte_mempool) (arg : mbuf_pool_ctor_arg) :
    rte_mempool :=
  if mp.private_data_size < cfg.sizeof_mbuf_pool_ctor_arg then mp
  else { mp with priv := arg }

/-- The object constructor `odp_dpdk_mbuf_ctor` (lines 137-184), returning the
header it writes into block `i` after zero-filling it. -/
def odp_dpdk_mbuf_ctor (cfg : Config) (mp : rte_mempool) (mb_ctor_arg : mbuf_ctor_arg)
    (i : Nat) : odp_buffer_hdr_t :=
  let mbp_ctor_arg := mp.priv
  let buf_addr := mb_ctor_arg.seg_buf_offset
  { buf_addr := buf_addr
    buf_len := mb_ctor_arg.seg_buf_size
    mbuf_type :=
      if mb_ctor_arg.type = ODP_POOL_PACKET then .RTE_MBUF_PKT else .RTE_MBUF_CTRL
    data :=
      if mb_ctor_arg.type = ODP_POOL_PACKET then buf_addr + cfg.ODP_CONFIG_PACKET_HEADROOM
      else buf_addr
    nb_segs := if mb_ctor_arg.type = ODP_POOL_PACKET then 1 else 0
    in_port := if mb_ctor_arg.type = ODP_POOL_PACKET then 255 else 0
    ol_flags := 0
    index := i
    pool_hdl := mbp_ctor_arg.pool_hdl
    type := mb_ctor_arg.type }

/-- Modelled from the spec: the external arena allocator `rte_mempool_create`
(DPDK, not in the source tree), the spec's
`reserve(name, count, object_stride, cache_size, per_pool_private_size, pool_ctor,
object_ctor, ctor_arg, numa_hint) -> ArenaHandle | null`. Whether the reservation
succeeds is decided by the allocator: that is the parameter `arena`. On success
the pool constructor runs once and then the object constructor on every block
`i < count`. -/
def rte_mempool_create (cfg : Config) (arena : Option String → Nat → Nat → Nat → Bool)
    (name : Option String) (n elt_size cache_size private_data_size : Nat)
    (mbp_ctor_arg : mbuf_pool_ctor_arg) (mb_ctor_arg : mbuf_ctor_arg) : Option rte_mempool :=
  if arena name n elt_size cache_size then
    let mp0 : rte_mempool :=
      { name := name, n := n, elt_size := elt_size, cache_size := cache_size
        private_data_size := private_data_size, priv := ⟨0, 0⟩, elts := [] }
    let mp := odp_dpdk_mbuf_pool_ctor cfg mp0 mbp_ctor_arg
    some { mp with elts := (List.range n).map (odp_dpdk_mbuf_ctor cfg mp mb_ctor_arg) }
  else none

/-! ## The pool table -/

/-- A pool slot `pool_entry_t` (declared in `odp_pool_internal.h`), with the
members `odp_pool.c` uses: `lock` is `true` while the spin lock is held,
`rte_mempool` is `none` for the C `NULL`, `name` is the stored C string. -/
structure pool_entry_s where
  lock : Bool
  pool_hdl : odp_pool_t
  rte_mempool : Option rte_mempool
  name : String
  params : odp_pool_param_t
deriving DecidableEq

/-- The pool table `pool_table_t` (lines 58-61): the array `pool` of
`ODP_CONFIG_POOLS` slots. -/
structure pool_table_t where
  pool : List pool_entry_s
deriving DecidableEq

/-- The table that lines 85-95 of `odp_pool_init_global` leave in `pool_tbl`: every
slot zeroed by `memset`, its lock initialised (not held) and its handle set to
`pool_index_to_handle(i)`. -/
def initial_table (cfg : Config) : pool_table_t :=
  ⟨(List.range cfg.ODP_CONFIG_POOLS).map fun i =>
    { lock := false, pool_hdl := pool_index_to_handle i, rte_mempool := none,
      name := "", params := zero_params }⟩

/-- The function `odp_pool_init_global` (lines 71-104): `shm_ok` tells whether the
shared-memory reservation gave an address. The result is the return value and
the table (`none` when `pool_tbl == NULL`). -/
def odp_pool_init_global (cfg : Config) (shm_ok : Bool) : Int × Option pool_table_t :=
  if shm_ok then (0, some (initial_table cfg)) else (-1, none)

/-- An arena allocator that grants every reservation. -/
def arena_grants_all : Option String → Nat → Nat → Nat → Bool := fun _ _ _ _ => true

/-! ## `odp_pool_create` (lines 193-343) -/

/-- The `strncpy(pool->s.name, name, ODP_POOL_NAME_LEN - 1)` of lines 328-334
followed by the terminating `0`: the stored C string. -/
def store_name (cfg : Config) (name : Option String) : String :=
  match name with
  | none => ""
  | some s => String.mk (s.data.take (cfg.ODP_POOL_NAME_LEN - 1))

/-- The value of `mb_ctor_arg.seg_buf_offset` (lines 290-291):
`(uint16_t) ODP_CACHE_LINE_SIZE_ROUNDUP(hdr_size)`. -/
def seg_buf_offset (cfg : Config) (hdr_size : Nat) : Nat :=
  ODP_CACHE_LINE_SIZE_ROUNDUP cfg hdr_size % 65536

/-- The value of `mb_size` (line 294), the stride of one object:
`mb_ctor_arg.seg_buf_offset + mb_ctor_arg.seg_buf_size`, the second term being
the `uint16_t` copy of `mbuf_data_room_size`. -/
def mb_size (cfg : Config) (hdr_size mbuf_data_room_size : Nat) : Nat :=
  (seg_buf_offset cfg hdr_size + mbuf_data_room_size % 65536) % 4294967296

/-- The body of the `for` loop of `odp_pool_create` (lines 213-339) on a slot
whose `rte_mempool` is `NULL`: the returned handle and the slot as the call
leaves it. -/
def create_in_slot (cfg : Config) (arena : Option String → Nat → Nat → Nat → Bool)
    (name : Option String) (params : odp_pool_param_t) (pool : pool_entry_s) :
    odp_pool_t × pool_entry_s :=
  let locked := { pool with lock := true }
  match switch_params cfg params with
  | .return_invalid => (ODP_POOL_INVALID, locked)
  | .bad_type => (ODP_POOL_INVALID, { locked with lock := false })
  | .sized hdr_size mbuf_data_room_size num =>
    let mb_ctor_arg : mbuf_ctor_arg :=
      { seg_buf_offset := seg_buf_offset cfg hdr_size
        seg_buf_size := mbuf_data_room_size % 65536
        type := params.type }
    let mbp_ctor_arg : mbuf_pool_ctor_arg :=
      { mbuf_data_room_size := mbuf_data_room_size, pool_hdl := pool.pool_hdl }
    match rte_mempool_create cfg arena name num (mb_size cfg hdr_size mbuf_data_room_size)
        (cache_size cfg num) cfg.sizeof_mbuf_pool_ctor_arg mbp_ctor_arg mb_ctor_arg with
    | none => (ODP_POOL_INVALID, { locked with rte_mempool := none, lock := false })
    | some mp =>
      (pool.pool_hdl,
        { locked with
          rte_mempool := some mp, name := store_name cfg name, params := params
          lock := false })

/-- The `for` loop of `odp_pool_create` (lines 209-340) over the remaining slots,
in index order. `none`: `LOCK` spins on a lock that is held, the call never
returns. -/
def create_scan (cfg : Config) (arena : Option String → Nat → Nat → Nat → Bool)
    (name : Option String) (params : odp_pool_param_t) :
    List pool_entry_s → Option (odp_pool_t × List pool_entry_s)
  | [] => some (ODP_POOL_INVALID, [])
  | pool :: rest =>
    if pool.lock then none
    else if pool.rte_mempool.isSome then
      match create_scan cfg arena name params rest with
      | none => none
      | some (hdl, rest') => some (hdl, pool :: rest')
    else
      some ((create_in_slot cfg arena name params pool).1,
        (create_in_slot cfg arena name params pool).2 :: rest)

/-- The function `odp_pool_create` (lines 193-343) as a transition of the pool
table: the returned handle and the table after the call, or `none` when the call
never returns. The `shm` argument is only logged. -/
def odp_pool_create (cfg : Config) (arena : Option String → Nat → Nat → Nat → Bool)
    (name : Option String) (params : odp_pool_param_t) (tbl : pool_table_t) :
    Option (odp_pool_t × pool_table_t) :=
  match create_scan cfg arena name params tbl.pool with
  | none => none
  | some (hdl, pool) => some (hdl, ⟨pool⟩)

/-- The slot as a successful `odp_pool_create` leaves it (lines 310-337). -/
def bound_slot (cfg : Config) (name : Option String) (params : odp_pool_param_t)
    (pool : pool_entry_s) (mp : rte_mempool) : pool_entry_s :=
  { lock := false, pool_hdl := pool.pool_hdl, rte_mempool := some mp,
    name := store_name cfg name, params := params }

/-! ## Sequences of `odp_pool_create` calls -/

/-- One `odp_pool_create` call of a sequential run: the arena's answer at the
time of the call, the name and the parameters. -/
structure create_call where
  arena : Option String → Nat → Nat → Nat → Bool
  name : Option String
  params : odp_pool_param_t

/-- A sequential run of `odp_pool_create` calls from the table `tbl`: the handles
returned, in call order. The run ends at a call that never returns. -/
def run_creates (cfg : Config) : List create_call → pool_table_t → List odp_pool_t
  | [], _ => []
  | c :: rest, tbl =>
    match odp_pool_create cfg c.arena c.name c.params tbl with
    | none => []
    | some (hdl, tbl') => hdl :: run_creates cfg rest tbl'

/-! ## `odp_pool_info`, `odp_pool_destroy`, `odp_buffer_pool` (lines 404-429) -/

/-- Modelled from the spec: `get_pool_entry` is declared in `odp_pool_internal.h`
(not in the source tree); it is the spec's `resolve(handle) -> slot`, an O(1)
index decode that finds no slot when the index is out of range. `none` is the C
`NULL`. -/
def get_pool_entry (tbl : pool_table_t) (pool_id : Nat) : Option pool_entry_s :=
  tbl.pool[pool_id]?

/-- The shared-memory handle written by `odp_pool_info`. -/
inductive odp_shm_t where
  | ODP_SHM_INVALID
  | ODP_SHM_NULL
deriving DecidableEq

/-- The structure `odp_pool_info_t` filled by `odp_pool_info`. -/
structure odp_pool_info_t where
  name : String
  shm : odp_shm_t
  params : odp_pool_param_t
deriving DecidableEq

/-- The function `odp_pool_info` (lines 404-417): the return value and what is
written to `*info`; `info_null` says that the `info` pointer is `NULL`. -/
def odp_pool_info (tbl : pool_table_t) (pool_hdl : odp_pool_t) (info_null : Bool) :
    Int × Option odp_pool_info_t :=
  let pool_id := pool_handle_to_index pool_hdl
  match get_pool_entry tbl pool_id with
  | none => (-1, none)
  | some pool =>
    if info_null then (-1, none)
    else (0, some { name := pool.name, shm := .ODP_SHM_INVALID, params := pool.params })

/-- How a call of a C function ends: with a return value, or in `abort()`. -/
inductive call_outcome (α : Type) where
  | returned (v : α)
  | aborted
deriving DecidableEq

/-- Sequencing of C statements: nothing runs after an abort. -/
def call_outcome.andThen {α β : Type} (x : call_outcome α) (f : α → call_outcome β) :
    call_outcome β :=
  match x with
  | .returned v => f v
  | .aborted => .aborted

/-- Modelled from the spec: the macro `ODP_UNIMPLEMENTED()` is declared in
`odp_debug_internal.h` (not in the source tree); it logs that the function is
"not supported" and goes on. -/
def ODP_UNIMPLEMENTED : call_outcome Unit := .returned ()

/-- Modelled from the spec: the macro `ODP_ABORT(fmt)` is declared in
`odp_debug_internal.h` (not in the source tree); the spec's "fatal abort": it logs
and calls `abort()`. -/
def ODP_ABORT : call_outcome Unit := .aborted

/-- The function `odp_pool_destroy` (lines 419-424): the outcome of the call, a
returned value coming with the pool table after the call. -/
def odp_pool_destroy (tbl : pool_table_t) (_pool_hdl : odp_pool_t) :
    call_outcome (Int × pool_table_t) :=
  ODP_UNIMPLEMENTED.andThen fun _ =>
  ODP_ABORT.andThen fun _ =>
  .returned (-1, tbl)

/-- The function `odp_buffer_pool` (lines 426-429): the `pool_hdl` field of the
header that `odp_buf_to_hdr` finds at the start of the object. -/
def odp_buffer_pool (buf : odp_buffer_hdr_t) : odp_pool_t :=
  buf.pool_hdl

/-! ## The cache-size loop with its iterations counted -/

/-- The loop of lines 299-303 run for at most `fuel` iterations, with `++j` in
unsigned 32-bit arithmetic: the final `cache_size` together with the values of
`j` for which the body ran (one per iteration, each used in `num % j`), or `none`
when `fuel` iterations did not reach the end of the loop. -/
def cache_loop_trace (num : Nat) : Nat → Nat → Nat → Option (Nat × List Nat)
  | 0, j, c => if j < num / 2 then none else some (c, [])
  | fuel + 1, j, c =>
    if j < num / 2 then
      match cache_loop_trace num fuel ((j + 1) % 4294967296)
          (if num % j = 0 then num / j else c) with
      | none => none
      | some (r, js) => some (r, j :: js)
    else some (c, [])

/-- A configuration in which the four constants `RTE_MEMPOOL_CACHE_MAX_SIZE`,
`ODP_CONFIG_BUFFER_ALIGN_MIN`, `ODP_CACHE_LINE_SIZE` and
`ODP_CONFIG_PACKET_SEG_LEN_MIN` are positive as in `refConfig`, and the segment
length is not capped below the largest `uint32_t`. -/
def uncappedConfig : Config :=
  { refConfig with ODP_CONFIG_PACKET_SEG_LEN_MAX := 4294967295 }

/-! ## Auxiliary facts: the slot scan -/

/-- A request rejected with a plain `return` yields `ODP_POOL_INVALID`. -/
theorem create_in_slot_return_invalid (cfg : Config)
    (arena : Option String → Nat → Nat → Nat → Bool) (name : Option String)
    (params : odp_pool_param_t) (pool : pool_entry_s)
    (h : switch_params cfg params = .return_invalid) :
    (create_in_slot cfg arena name params pool).1 = ODP_POOL_INVALID := by
  simp [create_in_slot, h]

/-- A valid handle out of the loop body means the switch sized the request and the
arena granted the reservation. -/
theorem create_in_slot_valid (cfg : Config)
    (arena : Option String → Nat → Nat → Nat → Bool) (name : Option String)
    (params : odp_pool_param_t) (pool : pool_entry_s)
    (h : (create_in_slot cfg arena name params pool).1 ≠ ODP_POOL_INVALID) :
    ∃ hdr_size room num, switch_params cfg params = .sized hdr_size room num ∧
      arena name num (mb_size cfg hdr_size room) (cache_size cfg num) = true := by
  unfold create_in_slot at h
  cases hs : switch_params cfg params with
  | return_invalid => simp [hs] at h
  | bad_type => simp [hs] at h
  | sized hdr_size room num =>
    refine ⟨hdr_size, room, num, rfl, ?_⟩
    by_contra ha
    simp [hs, rte_mempool_create, ha] at h

/-- With no lock held the scan returns; its handle is that of `create_in_slot` on the
first free slot, or `ODP_POOL_INVALID` when every slot is bound. -/
theorem create_scan_returns (cfg : Config)
    (arena : Option String → Nat → Nat → Nat → Bool) (name : Option String)
    (params : odp_pool_param_t) :
    ∀ (tbl : List pool_entry_s), (∀ p ∈ tbl, p.lock = false) →
      (∃ pre p post, tbl = pre ++ p :: post ∧ (∀ q ∈ pre, q.rte_mempool.isSome = true) ∧
        p.rte_mempool = none ∧
        create_scan cfg arena name params tbl =
          some ((create_in_slot cfg arena name params p).1,
            pre ++ (create_in_slot cfg arena name params p).2 :: post)) ∨
      ((∀ q ∈ tbl, q.rte_mempool.isSome = true) ∧
        create_scan cfg arena name params tbl = some (ODP_POOL_INVALID, tbl)) := by
  intro tbl
  induction tbl with
  | nil => intro _; right; simp [create_scan]
  | cons pool rest ih =>
    intro hl
    have hpl : pool.lock = false := hl pool (List.mem_cons_self _ _)
    have hrest : ∀ p ∈ rest, p.lock = false := fun p hp => hl p (List.mem_cons_of_mem _ hp)
    cases hm : pool.rte_mempool with
    | none =>
      left
      exact ⟨[], pool, rest, rfl, by simp, hm, by simp [create_scan, hpl, hm]⟩
    | some mp =>
      rcases ih hrest with ⟨pre, p, post, he, hpre, hp, hr⟩ | ⟨hall, hr⟩
      · left
        refine ⟨pool :: pre, p, post, by simp [he], ?_, hp, ?_⟩
        · intro q hq
          rcases List.mem_cons.1 hq with rfl | hq
          · simp [hm]
          · exact hpre q hq
        · simp [create_scan, hpl, hm, hr]
      · right
        refine ⟨?_, by simp [create_scan, hpl, hm, hr]⟩
        intro q hq
        rcases List.mem_cons.1 hq with rfl | hq
        · simp [hm]
        · exact hall q hq

/-- A request that the sizing switch rejects with a plain `return` makes
`odp_pool_create` return `ODP_POOL_INVALID` on every table with no lock held. -/
theorem odp_pool_create_return_invalid (cfg : Config)
    (arena : Option String → Nat → Nat → Nat → Bool) (name : Option String)
    (params : odp_pool_param_t) (tbl : pool_table_t)
    (hlock : ∀ p ∈ tbl.pool, p.lock = false)
    (h : switch_params cfg params = .return_invalid) :
    ∃ tbl', odp_pool_create cfg arena name params tbl = some (ODP_POOL_INVALID, tbl') := by
  unfold odp_pool_create
  rcases create_scan_returns cfg arena name params tbl.pool hlock with
    ⟨pre, p, post, _, _, _, hr⟩ | ⟨_, hr⟩
  · rw [hr, create_in_slot_return_invalid cfg arena name params p h]
    exact ⟨_, rfl⟩
  · rw [hr]
    exact ⟨_, rfl⟩

/-- A call that returns a valid handle went through the sizing switch and the
arena allocator granted the reservation. -/
theorem odp_pool_create_valid (cfg : Config)
    (arena : Option String → Nat → Nat → Nat → Bool) (name : Option String)
    (params : odp_pool_param_t) (tbl tbl' : pool_table_t) (hdl : odp_pool_t)
    (hr : odp_pool_create cfg arena name params tbl = some (hdl, tbl'))
    (hv : hdl ≠ ODP_POOL_INVALID) :
    ∃ hdr_size room num, switch_params cfg params = .sized hdr_size room num ∧
      arena name num (mb_size cfg hdr_size room) (cache_size cfg num) = true := by
  have key : ∀ (l : List pool_entry_s) (h : odp_pool_t) (l' : List pool_entry_s),
      create_scan cfg arena name params l = some (h, l') → h ≠ ODP_POOL_INVALID →
      ∃ p, (create_in_slot cfg arena name params p).1 ≠ ODP_POOL_INVALID := by
    intro l
    induction l with
    | nil => intro h l' hs hne; simp [create_scan] at hs; exact absurd hs.1.symm hne
    | cons pool rest ih =>
      intro h l' hs hne
      unfold create_scan at hs
      by_cases hpl : pool.lock = true
      · simp [hpl] at hs
      · by_cases hm : pool.rte_mempool.isSome = true
        · simp only [hpl, hm] at hs
          cases hrec : create_scan cfg arena name params rest with
          | none => simp [hrec] at hs
          | some r =>
            obtain ⟨h2, l2⟩ := r
            simp [hrec] at hs
            exact ih h2 l2 hrec (by rw [hs.1]; exact hne)
        · simp only [hpl, hm] at hs
          simp at hs
          exact ⟨pool, by rw [hs.1]; exact hne⟩
  unfold odp_pool_create at hr
  cases hsc : create_scan cfg arena name params tbl.pool with
  | none => simp [hsc] at hr
  | some r =>
    obtain ⟨h2, l2⟩ := r
    simp [hsc] at hr
    obtain ⟨p, hp⟩ := key tbl.pool h2 l2 hsc (by rw [hr.1]; exact hv)
    exact create_in_slot_valid cfg arena name params p hp

/-! ## Auxiliary facts: 32-bit rounding -/

/-- The rounded value is a multiple of the alignment, whether or not the sum wrapped. -/
theorem ODP_ALIGN_ROUNDUP_dvd (x align : Nat) : align ∣ ODP_ALIGN_ROUNDUP x align := by
  unfold ODP_ALIGN_ROUNDUP
  have h1 : (x + align + 4294967296 - 1) % 4294967296 < 4294967296 := Nat.mod_lt _ (by norm_num)
  have h2 := Nat.mul_div_le ((x + align + 4294967296 - 1) % 4294967296) align
  rw [Nat.mod_eq_of_lt (lt_of_le_of_lt h2 h1)]
  exact Dvd.intro _ rfl

/-- The rounded value is below `2^32`. -/
theorem ODP_ALIGN_ROUNDUP_lt (x align : Nat) : ODP_ALIGN_ROUNDUP x align < 4294967296 := by
  unfold ODP_ALIGN_ROUNDUP
  exact Nat.mod_lt _ (by norm_num)

/-- When `x + align - 1` does not wrap, the macro is the mathematical rounding. -/
theorem ODP_ALIGN_ROUNDUP_nowrap (x align : Nat) (hpos : 0 < align)
    (h : x + align ≤ 4294967296) :
    ODP_ALIGN_ROUNDUP x align = align * ((x + align - 1) / align) := by
  unfold ODP_ALIGN_ROUNDUP
  have e : (x + align + 4294967296 - 1) % 4294967296 = x + align - 1 := by omega
  rw [e]
  have h2 := Nat.mul_div_le (x + align - 1) align
  exact Nat.mod_eq_of_lt (by omega)

/-- When `x + align - 1` does not wrap, rounding up does not lose bytes. -/
theorem ODP_ALIGN_ROUNDUP_ge (x align : Nat) (hpos : 0 < align)
    (h : x + align ≤ 4294967296) : x ≤ ODP_ALIGN_ROUNDUP x align := by
  rw [ODP_ALIGN_ROUNDUP_nowrap x align hpos h]
  have h1 := Nat.div_add_mod (x + align - 1) align
  have h2 := Nat.mod_lt (x + align - 1) hpos
  omega

/-- Rounding an already aligned value leaves it unchanged. -/
theorem ODP_ALIGN_ROUNDUP_of_dvd (x align : Nat) (hpos : 0 < align) (hd : align ∣ x)
    (h : x + align ≤ 4294967296) : ODP_ALIGN_ROUNDUP x align = x := by
  rw [ODP_ALIGN_ROUNDUP_nowrap x align hpos h]
  obtain ⟨m, rfl⟩ := hd
  have e : align * m + align - 1 = align * m + (align - 1) := by omega
  rw [e, Nat.mul_add_div hpos, Nat.div_eq_of_lt (by omega)]
  simp

/-! ## Auxiliary facts: a successful create -/

/-- When the sizing switch accepts the request, the arena grants the reservation,
no lock is held and some slot is free, `odp_pool_create` binds the first free
slot, returns its handle and leaves the other slots as they were. -/
theorem odp_pool_create_succeeds (cfg : Config)
    (arena : Option String → Nat → Nat → Nat → Bool) (name : Option String)
    (params : odp_pool_param_t) (tbl : pool_table_t) (hdr_size room num : Nat)
    (hlock : ∀ p ∈ tbl.pool, p.lock = false)
    (hfree : ∃ p ∈ tbl.pool, p.rte_mempool = none)
    (hs : switch_params cfg params = .sized hdr_size room num)
    (ha : arena name num (mb_size cfg hdr_size room) (cache_size cfg num) = true) :
    ∃ pre p post mp, tbl.pool = pre ++ p :: post ∧
      (∀ q ∈ pre, q.rte_mempool.isSome = true) ∧ p.rte_mempool = none ∧
      rte_mempool_create cfg arena name num (mb_size cfg hdr_size room) (cache_size cfg num)
        cfg.sizeof_mbuf_pool_ctor_arg ⟨room, p.pool_hdl⟩
        ⟨seg_buf_offset cfg hdr_size, room % 65536, params.type⟩ = some mp ∧
      odp_pool_create cfg arena name params tbl =
        some (p.pool_hdl, ⟨pre ++ bound_slot cfg name params p mp :: post⟩) := by
  rcases create_scan_returns cfg arena name params tbl.pool hlock with
    ⟨pre, p, post, he, hpre, hp, hr⟩ | ⟨hall, _⟩
  · have hmp : ∃ mp, rte_mempool_create cfg arena name num (mb_size cfg hdr_size room)
        (cache_size cfg num) cfg.sizeof_mbuf_pool_ctor_arg ⟨room, p.pool_hdl⟩
        ⟨seg_buf_offset cfg hdr_size, room % 65536, params.type⟩ = some mp := by
      simp [rte_mempool_create, ha]
    obtain ⟨mp, hmp⟩ := hmp
    refine ⟨pre, p, post, mp, he, hpre, hp, hmp, ?_⟩
    unfold odp_pool_create
    rw [hr]
    simp [create_in_slot, hs, hmp, bound_slot]
  · obtain ⟨p, hp, hnone⟩ := hfree
    have := hall p hp
    simp [hnone] at this

/-! ## Auxiliary facts: two's complement and powers of two -/

/-- Bitwise and of two even numbers. -/
theorem land_even_even (a b : Nat) : (2 * a) &&& (2 * b) = 2 * (a &&& b) := by
  have h := Nat.land_bit false a false b
  simpa [Nat.bit_val] using h

/-- Bitwise and of two odd numbers. -/
theorem land_odd_odd (a b : Nat) : (2 * a + 1) &&& (2 * b + 1) = 2 * (a &&& b) + 1 := by
  have h := Nat.land_bit true a true b
  simpa [Nat.bit_val] using h

/-- Bitwise and of an even and an odd number. -/
theorem land_even_odd (a b : Nat) : (2 * a) &&& (2 * b + 1) = 2 * (a &&& b) := by
  have h := Nat.land_bit false a true b
  simpa [Nat.bit_val] using h

/-- Bitwise and of an odd and an even number. -/
theorem land_odd_even (a b : Nat) : (2 * a + 1) &&& (2 * b) = 2 * (a &&& b) := by
  have h := Nat.land_bit true a false b
  simpa [Nat.bit_val] using h

/-- A value and its complement within `w` bits share no bit. -/
theorem land_complement : ∀ (w y : Nat), y < 2 ^ w → y &&& (2 ^ w - 1 - y) = 0 := by
  intro w
  induction w with
  | zero => intro y hy; simp at hy; subst hy; simp
  | succ w ih =>
    intro y hy
    have hpow : 2 ^ (w + 1) = 2 * 2 ^ w := by ring
    rcases Nat.even_or_odd' y with ⟨z, hz | hz⟩
    · have hz' : z < 2 ^ w := by omega
      have : 2 ^ (w + 1) - 1 - y = 2 * (2 ^ w - 1 - z) + 1 := by omega
      rw [this, hz, land_even_odd, ih z hz']
    · have hz' : z < 2 ^ w := by omega
      have : 2 ^ (w + 1) - 1 - y = 2 * (2 ^ w - 1 - z) := by omega
      rw [this, hz, land_odd_even, ih z hz']

/-- In `w`-bit two's complement, `x & -x = x` exactly for the powers of two. -/
theorem land_neg_eq_self_iff : ∀ (w x : Nat), 0 < x → x < 2 ^ w →
    (x &&& (2 ^ w - x) = x ↔ ∃ k, x = 2 ^ k) := by
  intro w
  induction w with
  | zero => intro x h0 hx; simp at hx; omega
  | succ w ih =>
    intro x h0 hx
    have hpow : 2 ^ (w + 1) = 2 * 2 ^ w := by ring
    rcases Nat.even_or_odd' x with ⟨y, hy | hy⟩
    · have hy0 : 0 < y := by omega
      have hy' : y < 2 ^ w := by omega
      have hsub : 2 ^ (w + 1) - x = 2 * (2 ^ w - y) := by omega
      rw [hsub, hy, land_even_even]
      constructor
      · intro h
        have h2 : y &&& (2 ^ w - y) = y := by omega
        obtain ⟨k, hk⟩ := (ih y hy0 hy').1 h2
        exact ⟨k + 1, by rw [hk]; ring⟩
      · rintro ⟨k, hk⟩
        cases k with
        | zero => rw [pow_zero] at hk; omega
        | succ k =>
          have hyk : y = 2 ^ k := by
            have : 2 ^ (k + 1) = 2 * 2 ^ k := by ring
            omega
          have := (ih y hy0 hy').2 ⟨k, hyk⟩
          omega
    · have hy' : y < 2 ^ w := by omega
      have hsub : 2 ^ (w + 1) - x = 2 * (2 ^ w - 1 - y) + 1 := by omega
      rw [hsub, hy, land_odd_odd, land_complement w y hy']
      constructor
      · intro h
        exact ⟨0, by rw [pow_zero]; omega⟩
      · rintro ⟨k, hk⟩
        cases k with
        | zero => rw [pow_zero] at hk; omega
        | succ k =>
          have : 2 ^ (k + 1) = 2 * 2 ^ k := by ring
          omega

/-- The test `buf_align != ODP_ALIGN_ROUNDDOWN_POWER_2(buf_align, buf_align)` of
line 226 is false exactly for `0` and the powers of two. -/
theorem rounddown_self_iff (x : Nat) (hx : x < 4294967296) :
    x = ODP_ALIGN_ROUNDDOWN_POWER_2 x x ↔ (x = 0 ∨ ∃ k, x = 2 ^ k) := by
  unfold ODP_ALIGN_ROUNDDOWN_POWER_2
  rw [Nat.mod_eq_of_lt hx]
  rcases Nat.eq_zero_or_pos x with h0 | h0
  · subst h0
    simp
  · have e : (4294967296 - x) % 4294967296 = 2 ^ 32 - x := by
      rw [Nat.mod_eq_of_lt (by omega)]
      norm_num
    have hx' : x < 2 ^ 32 := by norm_num; exact hx
    rw [e]
    constructor
    · intro h
      right
      exact (land_neg_eq_self_iff 32 x h0 hx').1 h.symm
    · rintro (h | h)
      · omega
      · exact ((land_neg_eq_self_iff 32 x h0 hx').2 h).symm

/-! ## Buffer size overflow (claim C1) -/

/-- Away from the 32-bit wrap the size check works: a Buffer request of more than
65535 bytes whose rounding `size + buf_align - 1` stays below `2^32` is rejected
by the sizing switch with a plain `return ODP_POOL_INVALID`. -/
theorem buffer_oversize_rejected_nowrap (cfg : Config) (num size align : Nat)
    (hsize : 65535 < size) (hpos : 0 < buf_align cfg align)
    (hnowrap : size + buf_align cfg align ≤ 4294967296) :
    switch_params cfg (buffer_request num size align) = .return_invalid := by
  have hb : 65535 < buf_blk_size cfg size align := by
    unfold buf_blk_size
    split
    · exact lt_of_lt_of_le hsize (ODP_ALIGN_ROUNDUP_ge _ _ hpos hnowrap)
    · exact hsize
  simp only [switch_params, buffer_request, UINT16_MAX]
  split <;> simp_all

/-- The spec's scenario `{num=10, size=70000, align=0}` returns `ODP_POOL_INVALID`. -/
theorem huge_scenario_invalid :
    (odp_pool_create refConfig arena_grants_all (some "huge")
      (buffer_request 10 70000 0) (initial_table refConfig)).map Prod.fst
      = some ODP_POOL_INVALID := by
  decide

/-- C1 (code defect, evaluated at the failing input): the Buffer request
`{num=10, size=4294967295, align=0}` asks for far more than 65535 bytes and has a
valid alignment, yet `odp_pool_create` does not return `ODP_POOL_INVALID`: the sum
`size + buf_align - 1` of `ODP_ALIGN_ROUNDUP` wraps modulo `2^32`, the rounded
`blk_size` is `0`, `CHECK_U16_OVERFLOW` passes and, the arena granting the
reservation, the call binds slot 0 and returns its handle `0`. -/
theorem C1_oversize_buffer_accepted_after_wrap :
    65535 < (buffer_request 10 4294967295 0).buf.size ∧
    buf_align_rejected refConfig (buffer_request 10 4294967295 0).buf.align = false ∧
    buf_blk_size refConfig 4294967295 0 = 0 ∧
    (odp_pool_create refConfig arena_grants_all (some "huge")
      (buffer_request 10 4294967295 0) (initial_table refConfig)).map Prod.fst = some 0 ∧
    (0 : odp_pool_t) ≠ ODP_POOL_INVALID := by
  decide

/-! ## The packet scenario (claim C2) -/

/-- C2 (counterexample): in the configuration of the scenario (`headroom = 128`,
`tailroom = 0`, `SEG_LEN_MIN = 2048`) the request `{num=1024, len=1500, seg_len=0}`
does not get a block size of 2048: `seg_len` is rounded after the headroom was
added, so `blk_size` and the stored `mbuf_data_room_size` are 2176. -/
theorem C2_block_size_is_not_2048 :
    refConfig.ODP_CONFIG_PACKET_HEADROOM = 128 ∧
    refConfig.ODP_CONFIG_PACKET_TAILROOM = 0 ∧
    refConfig.ODP_CONFIG_PACKET_SEG_LEN_MIN = 2048 ∧
    switch_params refConfig (packet_request 1024 1500 0)
      = .sized refConfig.sizeof_odp_packet_hdr_t 2176 1024 ∧
    ¬ (pkt_seg_len_effective refConfig 0 = 2048 ∧ pkt_blk_size refConfig 1500 0 = 2048 ∧
        pkt_blk_size refConfig 1500 0 / pkt_seg_len refConfig 0 = 1) := by
  decide

/-- C2 (amended): with `headroom = 128`, `tailroom = 0`, `SEG_LEN_MIN = 2048` and an
alignment unit that divides 2176, the Packet request `{num=1024, len=1500,
seg_len=0}` gets the effective segment length 2048, the rounded `seg_len` 2176
(headroom included) and the block size 2176, stored as `mbuf_data_room_size`;
`blk_size / seg_len = 1`, and on a table with a free slot, no lock held and an
arena that grants the reservation the create returns a valid handle. -/
theorem C2_pkts_scenario (cfg : Config)
    (arena : Option String → Nat → Nat → Nat → Bool) (name : Option String)
    (tbl : pool_table_t)
    (hh : cfg.ODP_CONFIG_PACKET_HEADROOM = 128)
    (ht : cfg.ODP_CONFIG_PACKET_TAILROOM = 0)
    (hmin : cfg.ODP_CONFIG_PACKET_SEG_LEN_MIN = 2048)
    (halign : cfg.ODP_CONFIG_BUFFER_ALIGN_MIN ∣ 2176)
    (hseg : 1 ≤ cfg.ODP_BUFFER_MAX_SEG)
    (hlock : ∀ p ∈ tbl.pool, p.lock = false)
    (hfree : ∃ p ∈ tbl.pool, p.rte_mempool = none)
    (hhdl : ∀ p ∈ tbl.pool, p.pool_hdl ≠ ODP_POOL_INVALID)
    (harena : ∀ mb cs, arena name 1024 mb cs = true) :
    pkt_seg_len_effective cfg 0 = 2048 ∧
    pkt_seg_len cfg 0 = 2176 ∧
    pkt_blk_size cfg 1500 0 = 2176 ∧
    pkt_blk_size cfg 1500 0 / pkt_seg_len cfg 0 = 1 ∧
    switch_params cfg (packet_request 1024 1500 0)
      = .sized cfg.sizeof_odp_packet_hdr_t 2176 1024 ∧
    ∃ hdl tbl', odp_pool_create cfg arena name (packet_request 1024 1500 0) tbl
        = some (hdl, tbl') ∧ hdl ≠ ODP_POOL_INVALID := by
  have hApos : 0 < cfg.ODP_CONFIG_BUFFER_ALIGN_MIN := by
    rcases Nat.eq_zero_or_pos cfg.ODP_CONFIG_BUFFER_ALIGN_MIN with h0 | h0
    · rw [h0] at halign; simp at halign
    · exact h0
  have hAle : cfg.ODP_CONFIG_BUFFER_ALIGN_MIN ≤ 2176 := Nat.le_of_dvd (by norm_num) halign
  have e1 : pkt_seg_len_effective cfg 0 = 2048 := by simp [pkt_seg_len_effective, hmin]
  have e2 : pkt_seg_len cfg 0 = 2176 := by
    unfold pkt_seg_len
    rw [e1, hh, ht]
    exact ODP_ALIGN_ROUNDUP_of_dvd 2176 _ hApos halign (by omega)
  have e3 : pkt_blk_size cfg 1500 0 = 2176 := by
    unfold pkt_blk_size
    rw [e2]
    simp
  have e4 : switch_params cfg (packet_request 1024 1500 0)
      = .sized cfg.sizeof_odp_packet_hdr_t 2176 1024 := by
    have hne : ODP_POOL_PACKET ≠ ODP_POOL_BUFFER := by decide
    have hseg' : ¬ (1 > cfg.ODP_BUFFER_MAX_SEG) := by omega
    simp [switch_params, packet_request, e2, e3, hne, UINT16_MAX, hseg']
  refine ⟨e1, e2, e3, by rw [e3, e2], e4, ?_⟩
  obtain ⟨pre, p, post, mp, he, _, _, _, hr⟩ :=
    odp_pool_create_succeeds cfg arena name (packet_request 1024 1500 0) tbl _ _ _
      hlock hfree e4 (harena _ _)
  refine ⟨p.pool_hdl, _, hr, hhdl p ?_⟩
  rw [he]
  simp

/-- C2 (witness): the amended scenario at the reference configuration, on the table
left by `odp_pool_init_global`. -/
theorem C2_pkts_scenario_witness :
    pkt_seg_len_effective refConfig 0 = 2048 ∧
    pkt_seg_len refConfig 0 = 2176 ∧
    pkt_blk_size refConfig 1500 0 = 2176 ∧
    pkt_blk_size refConfig 1500 0 / pkt_seg_len refConfig 0 = 1 ∧
    switch_params refConfig (packet_request 1024 1500 0)
      = .sized refConfig.sizeof_odp_packet_hdr_t 2176 1024 ∧
    ∃ hdl tbl', odp_pool_create refConfig arena_grants_all (some "pkts")
        (packet_request 1024 1500 0) (initial_table refConfig)
        = some (hdl, tbl') ∧ hdl ≠ ODP_POOL_INVALID :=
  C2_pkts_scenario refConfig arena_grants_all (some "pkts") (initial_table refConfig)
    rfl rfl rfl (by decide) (by decide) (by decide) (by decide) (by decide)
    (fun _ _ => rfl)

/-! ## The cache-size loop (claims C3, C4, C5) -/

/-- What the loop of lines 299-303 computes from the state `(j, c)`: `c` when no
`k` in `[j, num / 2)` divides `num`, and otherwise `num / k` for the last such
`k` (the loop has no `break`, every later divisor overwrites `cache_size`). -/
theorem cache_loop_spec (num : Nat) : ∀ (n j c : Nat), num / 2 - j = n →
    ((∀ k, j ≤ k → k < num / 2 → num % k ≠ 0) ∧ cache_loop num j c = c) ∨
    (∃ k, j ≤ k ∧ k < num / 2 ∧ num % k = 0 ∧
      (∀ k', k < k' → k' < num / 2 → num % k' ≠ 0) ∧ cache_loop num j c = num / k) := by
  intro n
  induction n with
  | zero =>
    intro j c hn
    left
    refine ⟨fun k h1 h2 => by omega, ?_⟩
    rw [cache_loop, if_neg (by omega)]
  | succ n ih =>
    intro j c hn
    have hj : j < num / 2 := by omega
    have hunf : cache_loop num j c
        = cache_loop num (j + 1) (if num % j = 0 then num / j else c) := by
      rw [cache_loop, if_pos hj]
    rcases ih (j + 1) (if num % j = 0 then num / j else c) (by omega) with
      ⟨hno, hres⟩ | ⟨k, hk1, hk2, hk3, hk4, hres⟩
    · by_cases hd : num % j = 0
      · right
        refine ⟨j, le_refl _, hj, hd, fun k' h1 h2 => hno k' (by omega) h2, ?_⟩
        rw [hunf, hres, if_pos hd]
      · left
        refine ⟨fun k h1 h2 => ?_, ?_⟩
        · rcases Nat.eq_or_lt_of_le h1 with rfl | hlt
          · exact hd
          · exact hno k (by omega) h2
        · rw [hunf, hres, if_neg hd]
    · right
      exact ⟨k, by omega, hk2, hk3, hk4, by rw [hunf, hres]⟩

/-- The loop result when `k` is the last divisor of `num` in `[j, num / 2)`. -/
theorem cache_loop_last (num j c k : Nat) (h1 : j ≤ k) (h2 : k < num / 2)
    (h3 : num % k = 0) (h4 : ∀ k', k < k' → k' < num / 2 → num % k' ≠ 0) :
    cache_loop num j c = num / k := by
  rcases cache_loop_spec num _ j c rfl with ⟨hno, _⟩ | ⟨k2, a1, a2, a3, a4, hres⟩
  · exact absurd h3 (hno k h1 h2)
  · have : k2 = k := by
      rcases Nat.lt_trichotomy k2 k with hlt | heq | hgt
      · exact absurd h3 (a4 k hlt h2)
      · exact heq
      · exact absurd a3 (h4 k2 hgt a2)
    rw [hres, this]

/-- C3 (code defect, evaluated at the failing input): with `CACHE_MAX = 512` and
`num = 32768` the search starts at `j = 64`, which divides `num` and would give
`num / 64 = 512`; but the loop has no `break`, runs on to `j = 16383` and the last
divisor it meets, `8192`, leaves `cache_size = 4`. -/
theorem C3_cache_size_32768_is_4 :
    refConfig.RTE_MEMPOOL_CACHE_MAX_SIZE = 512 ∧
    32768 / refConfig.RTE_MEMPOOL_CACHE_MAX_SIZE = 64 ∧ 32768 % 64 = 0 ∧ 32768 / 64 = 512 ∧
    cache_size refConfig 32768 = 4 := by
  refine ⟨rfl, by decide, by decide, by decide, ?_⟩
  have h : cache_loop 32768 64 512 = 32768 / 8192 := by
    apply cache_loop_last 32768 64 512 8192 (by norm_num) (by norm_num) (by norm_num)
    intro k' h1 h2 h3
    have hk : k' * (32768 / k') = 32768 := by
      have := Nat.div_add_mod 32768 k'
      rw [h3] at this
      simpa using this
    have hq : 32768 / k' < 4 := by
      by_contra hc
      have : k' * 4 ≤ k' * (32768 / k') := Nat.mul_le_mul_left _ (by omega)
      omega
    have hq2 : 2 < 32768 / k' := by
      by_contra hc
      have : k' * (32768 / k') ≤ k' * 2 := Nat.mul_le_mul_left _ (by omega)
      omega
    have hq3 : 32768 / k' = 3 := by omega
    rw [hq3] at hk
    omega
  simp only [cache_size, refConfig]
  rw [if_pos (by norm_num)]
  exact h

/-- C4 (code defect, evaluated at the failing input): with `CACHE_MAX = 512` and
`num = 521` the search starts at `j = 521 / 512 = 1`, which divides `num`, and no
other `j < 260` does, so `cache_size = 521 / 1 = 521`, above `CACHE_MAX`. -/
theorem C4_cache_size_521_exceeds_max :
    cache_size refConfig 521 = 521 ∧
    refConfig.RTE_MEMPOOL_CACHE_MAX_SIZE < cache_size refConfig 521 := by
  have h : cache_loop 521 1 512 = 521 / 1 := by
    apply cache_loop_last 521 1 512 1 (by norm_num) (by norm_num) (by norm_num)
    intro k' h1 h2
    have h2' : k' < 260 := by omega
    clear h2
    interval_cases k' <;> omega
  have e : cache_size refConfig 521 = 521 := by
    simp only [cache_size, refConfig]
    rw [if_pos (by norm_num)]
    exact h
  rw [e]
  exact ⟨rfl, by decide⟩

/-- C5: for every `num >= CACHE_MAX` the cache size computed by lines 297-306
either evenly divides `num`, or equals `CACHE_MAX` and no `j` with
`num / CACHE_MAX <= j < num / 2` divides `num`. -/
theorem C5_cache_size_divides_or_max (cfg : Config) (num : Nat)
    (hnum : cfg.RTE_MEMPOOL_CACHE_MAX_SIZE ≤ num) :
    num % cache_size cfg num = 0 ∨
    (cache_size cfg num = cfg.RTE_MEMPOOL_CACHE_MAX_SIZE ∧
      ∀ j, num / cfg.RTE_MEMPOOL_CACHE_MAX_SIZE ≤ j → j < num / 2 → num % j ≠ 0) := by
  have hc : cache_size cfg num
      = cache_loop num (num / cfg.RTE_MEMPOOL_CACHE_MAX_SIZE)
          cfg.RTE_MEMPOOL_CACHE_MAX_SIZE := by
    simp [cache_size, hnum]
  rcases cache_loop_spec num _ (num / cfg.RTE_MEMPOOL_CACHE_MAX_SIZE)
      cfg.RTE_MEMPOOL_CACHE_MAX_SIZE rfl with ⟨hno, hres⟩ | ⟨k, _, _, hk, _, hres⟩
  · right
    exact ⟨by rw [hc, hres], hno⟩
  · left
    rw [hc, hres]
    exact Nat.mod_eq_zero_of_dvd (Nat.div_dvd_of_dvd (Nat.dvd_of_mod_eq_zero hk))

/-- C5 (witness): `num = 1024` with `CACHE_MAX = 512`. -/
theorem C5_cache_size_divides_or_max_witness :
    1024 % cache_size refConfig 1024 = 0 ∨
    (cache_size refConfig 1024 = refConfig.RTE_MEMPOOL_CACHE_MAX_SIZE ∧
      ∀ j, 1024 / refConfig.RTE_MEMPOOL_CACHE_MAX_SIZE ≤ j → j < 1024 / 2 → 1024 % j ≠ 0) :=
  C5_cache_size_divides_or_max refConfig 1024 (by decide)

/-! ## Buffer alignment: the validation of lines 225-226 -/

/-- How the sizing switch treats a Buffer request whose type tag is
`ODP_POOL_BUFFER`. -/
theorem switch_params_buffer (cfg : Config) (params : odp_pool_param_t)
    (htype : params.type = ODP_POOL_BUFFER) :
    switch_params cfg params =
      if buf_align_rejected cfg params.buf.align = true then .return_invalid
      else if buf_blk_size cfg params.buf.size params.buf.align > UINT16_MAX then
        .return_invalid
      else .sized cfg.sizeof_odp_buffer_hdr_t
        (buf_blk_size cfg params.buf.size params.buf.align % 65536) params.buf.num := by
  simp [switch_params, htype]

/-- The payload size of an object, `mb_size - seg_buf_offset`, is the stored
`mbuf_data_room_size` whenever that fits 16 bits. -/
theorem mb_size_sub_offset (cfg : Config) (hdr_size room : Nat) (h : room ≤ 65535) :
    mb_size cfg hdr_size room - seg_buf_offset cfg hdr_size = room := by
  unfold mb_size
  have h1 : seg_buf_offset cfg hdr_size < 65536 := by
    unfold seg_buf_offset
    exact Nat.mod_lt _ (by norm_num)
  rw [Nat.mod_eq_of_lt (by omega : room < 65536), Nat.mod_eq_of_lt (by omega)]
  omega

/-- The alignment validation while no slot lock is held: for a 32-bit `align`, the
test of lines 225-226 rejects exactly when `align > ODP_CONFIG_BUFFER_ALIGN_MAX` or
`align` is nonzero and not a power of two (the test
`buf_align != (buf_align & -buf_align)` is true exactly for the nonzero values that
are not powers of two); on a table with no lock held a rejected Buffer request
makes `odp_pool_create` return `ODP_POOL_INVALID`, and a Buffer request that passes
the validation is decided by the size check alone. -/
theorem align_validation_no_lock_held (cfg : Config)
    (arena : Option String → Nat → Nat → Nat → Bool) (name : Option String)
    (num size align : Nat) (tbl : pool_table_t)
    (h32 : align < 4294967296)
    (hlock : ∀ p ∈ tbl.pool, p.lock = false) :
    (buf_align_rejected cfg align = true ↔
      (align > cfg.ODP_CONFIG_BUFFER_ALIGN_MAX ∨ (align ≠ 0 ∧ ¬ ∃ k, align = 2 ^ k))) ∧
    (align ≠ ODP_ALIGN_ROUNDDOWN_POWER_2 align align ↔ (align ≠ 0 ∧ ¬ ∃ k, align = 2 ^ k)) ∧
    (buf_align_rejected cfg align = true →
      ∃ tbl', odp_pool_create cfg arena name (buffer_request num size align) tbl
        = some (ODP_POOL_INVALID, tbl')) ∧
    (buf_align_rejected cfg align = false →
      switch_params cfg (buffer_request num size align) =
        if buf_blk_size cfg size align > UINT16_MAX then .return_invalid
        else .sized cfg.sizeof_odp_buffer_hdr_t (buf_blk_size cfg size align % 65536) num) := by
  have htest : align ≠ ODP_ALIGN_ROUNDDOWN_POWER_2 align align ↔
      (align ≠ 0 ∧ ¬ ∃ k, align = 2 ^ k) := by
    rw [Ne, rounddown_self_iff align h32]
    tauto
  have hswitch := switch_params_buffer cfg (buffer_request num size align) rfl
  refine ⟨?_, htest, ?_, ?_⟩
  · simp only [buf_align_rejected, Bool.or_eq_true, decide_eq_true_eq]
    rw [htest]
  · intro hrej
    apply odp_pool_create_return_invalid cfg arena name _ tbl hlock
    rw [hswitch]
    simp [buffer_request, hrej]
  · intro hpass
    rw [hswitch]
    simp [buffer_request, hpass]

/-- The alignment validation at `align = 24` (nonzero, not a power of two), at the
reference configuration and on the table left by `odp_pool_init_global`. -/
theorem align_validation_no_lock_held_example :
    (24 : Nat) < 4294967296 ∧
    (buf_align_rejected refConfig 24 = true ↔
      (24 > refConfig.ODP_CONFIG_BUFFER_ALIGN_MAX ∨ ((24 : Nat) ≠ 0 ∧ ¬ ∃ k, 24 = 2 ^ k))) ∧
    ((24 : Nat) ≠ ODP_ALIGN_ROUNDDOWN_POWER_2 24 24 ↔ ((24 : Nat) ≠ 0 ∧ ¬ ∃ k, 24 = 2 ^ k)) ∧
    (buf_align_rejected refConfig 24 = true →
      ∃ tbl', odp_pool_create refConfig arena_grants_all (some "bufs")
          (buffer_request 8 256 24) (initial_table refConfig)
        = some (ODP_POOL_INVALID, tbl')) ∧
    (buf_align_rejected refConfig 24 = false →
      switch_params refConfig (buffer_request 8 256 24) =
        if buf_blk_size refConfig 256 24 > UINT16_MAX then .return_invalid
        else .sized refConfig.sizeof_odp_buffer_hdr_t
          (buf_blk_size refConfig 256 24 % 65536) 8) :=
  ⟨by decide, align_validation_no_lock_held refConfig arena_grants_all (some "bufs") 8 256 24
    (initial_table refConfig) (by decide) (by decide)⟩

/-! ## Packet sizing (claims C8, C9, C10) -/

/-- How the sizing switch treats a request whose type tag is `ODP_POOL_PACKET`. -/
theorem switch_params_packet (cfg : Config) (params : odp_pool_param_t)
    (htype : params.type = ODP_POOL_PACKET) :
    switch_params cfg params =
      if pkt_blk_size cfg params.pkt.len params.pkt.seg_len
          / pkt_seg_len cfg params.pkt.seg_len > cfg.ODP_BUFFER_MAX_SEG then .return_invalid
      else if pkt_blk_size cfg params.pkt.len params.pkt.seg_len > UINT16_MAX then
        .return_invalid
      else .sized cfg.sizeof_odp_packet_hdr_t
        (pkt_blk_size cfg params.pkt.len params.pkt.seg_len % 65536) params.pkt.num := by
  have hne : ODP_POOL_PACKET ≠ ODP_POOL_BUFFER := by decide
  simp [switch_params, htype, hne]

/-- The block size of a Packet request is a multiple of the rounded segment
length, whether or not the rounding of `len` wrapped. -/
theorem pkt_seg_len_dvd_blk_size (cfg : Config) (len seg_len : Nat) :
    pkt_seg_len cfg seg_len ∣ pkt_blk_size cfg len seg_len := by
  unfold pkt_blk_size
  split
  · exact dvd_refl _
  · exact ODP_ALIGN_ROUNDUP_dvd _ _

/-- A Packet request on which `odp_pool_create` succeeds passed the segment-count
check and the 16-bit size check. -/
theorem packet_create_valid (cfg : Config)
    (arena : Option String → Nat → Nat → Nat → Bool) (name : Option String)
    (params : odp_pool_param_t) (tbl tbl' : pool_table_t) (hdl : odp_pool_t)
    (htype : params.type = ODP_POOL_PACKET)
    (hr : odp_pool_create cfg arena name params tbl = some (hdl, tbl'))
    (hv : hdl ≠ ODP_POOL_INVALID) :
    pkt_blk_size cfg params.pkt.len params.pkt.seg_len / pkt_seg_len cfg params.pkt.seg_len
      ≤ cfg.ODP_BUFFER_MAX_SEG ∧
    pkt_blk_size cfg params.pkt.len params.pkt.seg_len ≤ 65535 := by
  obtain ⟨hdr_size, room, num, hs, _⟩ :=
    odp_pool_create_valid cfg arena name params tbl tbl' hdl hr hv
  rw [switch_params_packet cfg params htype] at hs
  by_cases hseg : pkt_blk_size cfg params.pkt.len params.pkt.seg_len
      / pkt_seg_len cfg params.pkt.seg_len > cfg.ODP_BUFFER_MAX_SEG
  · simp [hseg] at hs
  by_cases hbig : pkt_blk_size cfg params.pkt.len params.pkt.seg_len > UINT16_MAX
  · simp [hseg, hbig] at hs
  unfold UINT16_MAX at hbig
  exact ⟨by omega, by omega⟩

/-- C8: for every Packet request on which `odp_pool_create` succeeds, the block
size is an exact multiple of the rounded segment length `seg_len`, so that
`blk_size / seg_len` equals the rounded-up quotient `ceil(blk_size / seg_len)`, and
this segment count is at most `ODP_BUFFER_MAX_SEG`. -/
theorem C8_packet_segment_bound (cfg : Config)
    (arena : Option String → Nat → Nat → Nat → Bool) (name : Option String)
    (params : odp_pool_param_t) (tbl tbl' : pool_table_t) (hdl : odp_pool_t)
    (htype : params.type = ODP_POOL_PACKET)
    (hr : odp_pool_create cfg arena name params tbl = some (hdl, tbl'))
    (hv : hdl ≠ ODP_POOL_INVALID) :
    pkt_seg_len cfg params.pkt.seg_len ∣ pkt_blk_size cfg params.pkt.len params.pkt.seg_len ∧
    pkt_blk_size cfg params.pkt.len params.pkt.seg_len % pkt_seg_len cfg params.pkt.seg_len = 0 ∧
    (pkt_blk_size cfg params.pkt.len params.pkt.seg_len + pkt_seg_len cfg params.pkt.seg_len - 1)
        / pkt_seg_len cfg params.pkt.seg_len
      = pkt_blk_size cfg params.pkt.len params.pkt.seg_len
        / pkt_seg_len cfg params.pkt.seg_len ∧
    pkt_blk_size cfg params.pkt.len params.pkt.seg_len / pkt_seg_len cfg params.pkt.seg_len
      ≤ cfg.ODP_BUFFER_MAX_SEG := by
  have hd := pkt_seg_len_dvd_blk_size cfg params.pkt.len params.pkt.seg_len
  refine ⟨hd, Nat.mod_eq_zero_of_dvd hd, ?_,
    (packet_create_valid cfg arena name params tbl tbl' hdl htype hr hv).1⟩
  obtain ⟨m, hm⟩ := hd
  rw [hm]
  rcases Nat.eq_zero_or_pos (pkt_seg_len cfg params.pkt.seg_len) with h0 | hpos
  · rw [h0]
    simp
  · have e : pkt_seg_len cfg params.pkt.seg_len * m + pkt_seg_len cfg params.pkt.seg_len - 1
        = pkt_seg_len cfg params.pkt.seg_len * m + (pkt_seg_len cfg params.pkt.seg_len - 1) := by
      omega
    rw [e, Nat.mul_add_div hpos, Nat.div_eq_of_lt (by omega), Nat.mul_div_cancel_left m hpos]
    simp

/-- C8 (witness): the Packet request `{num=4, len=5000, seg_len=0}` (three segments
of 2176 bytes) on the table left by `odp_pool_init_global`. -/
theorem C8_packet_segment_bound_witness :
    pkt_seg_len refConfig 0 ∣ pkt_blk_size refConfig 5000 0 ∧
    pkt_blk_size refConfig 5000 0 % pkt_seg_len refConfig 0 = 0 ∧
    (pkt_blk_size refConfig 5000 0 + pkt_seg_len refConfig 0 - 1) / pkt_seg_len refConfig 0
      = pkt_blk_size refConfig 5000 0 / pkt_seg_len refConfig 0 ∧
    pkt_blk_size refConfig 5000 0 / pkt_seg_len refConfig 0 ≤ refConfig.ODP_BUFFER_MAX_SEG :=
  C8_packet_segment_bound refConfig arena_grants_all (some "pkts") (packet_request 4 5000 0)
    (initial_table refConfig)
    ((odp_pool_create refConfig arena_grants_all (some "pkts") (packet_request 4 5000 0)
      (initial_table refConfig)).get (by decide)).2
    0 rfl (by decide) (by decide)

/-- Away from the 32-bit wrap a successful Packet create does not truncate: when
the rounded `seg_len` is nonzero and `len + seg_len - 1` stays below `2^32`, the
block size is at least `len`. -/
theorem packet_blk_size_ge_len_nowrap (cfg : Config) (len seg_len : Nat)
    (hpos : 0 < pkt_seg_len cfg seg_len)
    (hnowrap : len + pkt_seg_len cfg seg_len ≤ 4294967296) :
    len ≤ pkt_blk_size cfg len seg_len := by
  unfold pkt_blk_size
  split
  · assumption
  · exact ODP_ALIGN_ROUNDUP_ge _ _ hpos hnowrap

/-- C9 (code defect, evaluated at the failing input): the Packet request
`{num=1, len=4294967295, seg_len=0}` needs far more than `ODP_BUFFER_MAX_SEG = 6`
segments of 2176 bytes, yet `odp_pool_create` does not return `ODP_POOL_INVALID`:
the sum `len + seg_len - 1` of `ODP_ALIGN_ROUNDUP` wraps modulo `2^32`, `blk_size`
becomes `0`, both checks pass and the call binds slot 0 with a block size below
the requested `len`. -/
theorem C9_huge_len_accepted_after_wrap :
    pkt_seg_len refConfig 0 = 2176 ∧
    refConfig.ODP_BUFFER_MAX_SEG * pkt_seg_len refConfig 0 < 4294967295 ∧
    pkt_blk_size refConfig 4294967295 0 = 0 ∧
    pkt_blk_size refConfig 4294967295 0 < (packet_request 1 4294967295 0).pkt.len ∧
    (odp_pool_create refConfig arena_grants_all (some "pkts")
      (packet_request 1 4294967295 0) (initial_table refConfig)).map Prod.fst = some 0 ∧
    (0 : odp_pool_t) ≠ ODP_POOL_INVALID := by
  decide

/-- C10 (counterexample): the nonzero request `seg_len = 1` is below
`ODP_CONFIG_PACKET_SEG_LEN_MIN = 2048` and is kept as it is: lines 251-254 clamp a
nonzero `seg_len` from above only. -/
theorem C10_small_seg_len_not_raised :
    pkt_seg_len_effective refConfig 1 = 1 ∧
    ¬ (refConfig.ODP_CONFIG_PACKET_SEG_LEN_MIN ≤ pkt_seg_len_effective refConfig 1 ∧
        pkt_seg_len_effective refConfig 1 ≤ refConfig.ODP_CONFIG_PACKET_SEG_LEN_MAX) := by
  decide

/-- C10 (amended): the effective segment length is `ODP_CONFIG_PACKET_SEG_LEN_MIN`
when `seg_len = 0` and otherwise `min(seg_len, ODP_CONFIG_PACKET_SEG_LEN_MAX)`; with
`SEG_LEN_MIN <= SEG_LEN_MAX` it is at most `SEG_LEN_MAX`, and it is at least
`SEG_LEN_MIN` when `seg_len` is `0` or at least `SEG_LEN_MIN`. -/
theorem C10_effective_seg_len (cfg : Config) (seg_len : Nat)
    (hcfg : cfg.ODP_CONFIG_PACKET_SEG_LEN_MIN ≤ cfg.ODP_CONFIG_PACKET_SEG_LEN_MAX) :
    pkt_seg_len_effective cfg seg_len
      = (if seg_len = 0 then cfg.ODP_CONFIG_PACKET_SEG_LEN_MIN
          else min seg_len cfg.ODP_CONFIG_PACKET_SEG_LEN_MAX) ∧
    pkt_seg_len_effective cfg seg_len ≤ cfg.ODP_CONFIG_PACKET_SEG_LEN_MAX ∧
    ((seg_len = 0 ∨ cfg.ODP_CONFIG_PACKET_SEG_LEN_MIN ≤ seg_len) →
      cfg.ODP_CONFIG_PACKET_SEG_LEN_MIN ≤ pkt_seg_len_effective cfg seg_len) := by
  unfold pkt_seg_len_effective
  refine ⟨?_, ?_, ?_⟩
  · split
    · rfl
    · split
      · rw [Nat.min_eq_left (by assumption)]
      · rw [Nat.min_eq_right (by omega)]
  · split
    · exact hcfg
    · split
      · assumption
      · exact le_refl _
  · intro h
    split
    · exact le_refl _
    · split
      · omega
      · exact hcfg

/-- C10 (witness): `seg_len = 3000` at the reference configuration. -/
theorem C10_effective_seg_len_witness :
    refConfig.ODP_CONFIG_PACKET_SEG_LEN_MIN ≤ refConfig.ODP_CONFIG_PACKET_SEG_LEN_MAX ∧
    pkt_seg_len_effective refConfig 3000
      = (if (3000 : Nat) = 0 then refConfig.ODP_CONFIG_PACKET_SEG_LEN_MIN
          else min 3000 refConfig.ODP_CONFIG_PACKET_SEG_LEN_MAX) ∧
    pkt_seg_len_effective refConfig 3000 ≤ refConfig.ODP_CONFIG_PACKET_SEG_LEN_MAX ∧
    (((3000 : Nat) = 0 ∨ refConfig.ODP_CONFIG_PACKET_SEG_LEN_MIN ≤ 3000) →
      refConfig.ODP_CONFIG_PACKET_SEG_LEN_MIN ≤ pkt_seg_len_effective refConfig 3000) :=
  ⟨by decide, C10_effective_seg_len refConfig 3000 (by decide)⟩

/-! ## Auxiliary facts: what one call does to the table -/

/-- The loop body on a free slot either fails, returning `ODP_POOL_INVALID` and
touching nothing but the lock, or binds the slot and returns its handle. -/
theorem create_in_slot_cases (cfg : Config)
    (arena : Option String → Nat → Nat → Nat → Bool) (name : Option String)
    (params : odp_pool_param_t) (p : pool_entry_s) (hfree : p.rte_mempool = none) :
    ((create_in_slot cfg arena name params p).1 = ODP_POOL_INVALID ∧
      ∃ b, (create_in_slot cfg arena name params p).2 = { p with lock := b }) ∨
    (∃ hdr_size room num mp, switch_params cfg params = .sized hdr_size room num ∧
      rte_mempool_create cfg arena name num (mb_size cfg hdr_size room) (cache_size cfg num)
        cfg.sizeof_mbuf_pool_ctor_arg ⟨room, p.pool_hdl⟩
        ⟨seg_buf_offset cfg hdr_size, room % 65536, params.type⟩ = some mp ∧
      (create_in_slot cfg arena name params p).1 = p.pool_hdl ∧
      (create_in_slot cfg arena name params p).2 = bound_slot cfg name params p mp) := by
  unfold create_in_slot
  cases hs : switch_params cfg params with
  | return_invalid => left; exact ⟨rfl, true, rfl⟩
  | bad_type => left; exact ⟨rfl, false, rfl⟩
  | sized hdr_size room num =>
    cases hm : rte_mempool_create cfg arena name num (mb_size cfg hdr_size room)
        (cache_size cfg num) cfg.sizeof_mbuf_pool_ctor_arg ⟨room, p.pool_hdl⟩
        ⟨seg_buf_offset cfg hdr_size, room % 65536, params.type⟩ with
    | none =>
      left
      refine ⟨by simp [hm], false, ?_⟩
      simp only [hm]
      cases p
      simp_all
    | some mp =>
      right
      exact ⟨hdr_size, room, num, mp, rfl, hm, by simp [hm], by simp [hm, bound_slot]⟩

/-- A scan that returns either found every slot bound and changed nothing, or ran
the loop body on the first free slot and left the other slots as they were. -/
theorem create_scan_cases (cfg : Config)
    (arena : Option String → Nat → Nat → Nat → Bool) (name : Option String)
    (params : odp_pool_param_t) :
    ∀ (l : List pool_entry_s) (h : odp_pool_t) (l' : List pool_entry_s),
      create_scan cfg arena name params l = some (h, l') →
      ((∀ q ∈ l, q.rte_mempool.isSome = true) ∧ h = ODP_POOL_INVALID ∧ l' = l) ∨
      (∃ pre p post, l = pre ++ p :: post ∧ (∀ q ∈ pre, q.rte_mempool.isSome = true) ∧
        p.rte_mempool = none ∧ h = (create_in_slot cfg arena name params p).1 ∧
        l' = pre ++ (create_in_slot cfg arena name params p).2 :: post) := by
  intro l
  induction l with
  | nil =>
    intro h l' hs
    simp [create_scan] at hs
    left
    exact ⟨by simp, hs.1.symm, hs.2⟩
  | cons pool rest ih =>
    intro h l' hs
    unfold create_scan at hs
    by_cases hpl : pool.lock = true
    · simp [hpl] at hs
    · by_cases hm : pool.rte_mempool.isSome = true
      · simp only [hpl, hm] at hs
        cases hrec : create_scan cfg arena name params rest with
        | none => simp [hrec] at hs
        | some r =>
          obtain ⟨h2, l2⟩ := r
          simp [hrec] at hs
          obtain ⟨rfl, rfl⟩ := hs
          rcases ih h2 l2 hrec with ⟨hall, hinv, hl⟩ | ⟨pre, p, post, he, hpre, hp, hh, hl⟩
          · left
            refine ⟨?_, hinv, by rw [hl]⟩
            intro q hq
            rcases List.mem_cons.1 hq with rfl | hq
            · exact hm
            · exact hall q hq
          · right
            refine ⟨pool :: pre, p, post, by simp [he], ?_, hp, hh, by simp [hl]⟩
            intro q hq
            rcases List.mem_cons.1 hq with rfl | hq
            · exact hm
            · exact hpre q hq
      · simp only [hpl, hm] at hs
        simp at hs
        right
        refine ⟨[], pool, rest, rfl, by simp, ?_, hs.1.symm, by simp [hs.2]⟩
        cases hv : pool.rte_mempool with
        | none => rfl
        | some mp => simp [hv] at hm

/-- A call that returns a valid handle bound the first free slot: the slots before
it are bound, the handle is that slot's, and the table differs in that slot
only. -/
theorem odp_pool_create_valid_bound (cfg : Config)
    (arena : Option String → Nat → Nat → Nat → Bool) (name : Option String)
    (params : odp_pool_param_t) (tbl tbl' : pool_table_t) (hdl : odp_pool_t)
    (hr : odp_pool_create cfg arena name params tbl = some (hdl, tbl'))
    (hv : hdl ≠ ODP_POOL_INVALID) :
    ∃ pre p post hdr_size room num mp, tbl.pool = pre ++ p :: post ∧
      (∀ q ∈ pre, q.rte_mempool.isSome = true) ∧ p.rte_mempool = none ∧
      switch_params cfg params = .sized hdr_size room num ∧
      rte_mempool_create cfg arena name num (mb_size cfg hdr_size room) (cache_size cfg num)
        cfg.sizeof_mbuf_pool_ctor_arg ⟨room, p.pool_hdl⟩
        ⟨seg_buf_offset cfg hdr_size, room % 65536, params.type⟩ = some mp ∧
      hdl = p.pool_hdl ∧
      tbl'.pool = pre ++ bound_slot cfg name params p mp :: post := by
  unfold odp_pool_create at hr
  cases hsc : create_scan cfg arena name params tbl.pool with
  | none => simp [hsc] at hr
  | some r =>
    obtain ⟨h2, l2⟩ := r
    simp [hsc] at hr
    obtain ⟨rfl, rfl⟩ := hr
    rcases create_scan_cases cfg arena name params tbl.pool h2 l2 hsc with
      ⟨_, hinv, _⟩ | ⟨pre, p, post, he, hpre, hp, hh, hl⟩
    · exact absurd hinv hv
    · rcases create_in_slot_cases cfg arena name params p hp with
        ⟨hinv, _⟩ | ⟨hdr_size, room, num, mp, hs, hm, h1, h2'⟩
      · rw [hh] at hv
        exact absurd hinv hv
      · exact ⟨pre, p, post, hdr_size, room, num, mp, he, hpre, hp, hs, hm,
          by rw [hh, h1], by rw [hl, h2']⟩

/-! ## Failed and successful creates (claim C11) -/

/-- C11: whenever `odp_pool_create` returns `ODP_POOL_INVALID` on a table whose slot
handles are valid (as `odp_pool_init_global` sets them), the table after the call
has the same number of slots and every slot has the same `rte_mempool` (so the
same free/bound status), the same name and the same params as before: a failed
create never partially binds a slot. -/
theorem C11_failed_create_binds_nothing (cfg : Config)
    (arena : Option String → Nat → Nat → Nat → Bool) (name : Option String)
    (params : odp_pool_param_t) (tbl tbl' : pool_table_t)
    (hhdl : ∀ p ∈ tbl.pool, p.pool_hdl ≠ ODP_POOL_INVALID)
    (hr : odp_pool_create cfg arena name params tbl = some (ODP_POOL_INVALID, tbl')) :
    tbl'.pool.length = tbl.pool.length ∧
    tbl'.pool.map (fun p => (p.rte_mempool, p.name, p.params))
      = tbl.pool.map (fun p => (p.rte_mempool, p.name, p.params)) := by
  unfold odp_pool_create at hr
  cases hsc : create_scan cfg arena name params tbl.pool with
  | none => simp [hsc] at hr
  | some r =>
    obtain ⟨h2, l2⟩ := r
    simp [hsc] at hr
    obtain ⟨rfl, rfl⟩ := hr
    rcases create_scan_cases cfg arena name params tbl.pool _ l2 hsc with
      ⟨_, _, hl⟩ | ⟨pre, p, post, he, _, hp, hh, hl⟩
    · rw [hl]
      exact ⟨rfl, rfl⟩
    · rcases create_in_slot_cases cfg arena name params p hp with
        ⟨_, b, hb⟩ | ⟨_, _, _, _, _, _, h1, _⟩
      · rw [hl, he, hb]
        simp
      · exfalso
        apply hhdl p (by rw [he]; simp)
        rw [← h1, ← hh]

/-- C11 (witness): the rejected request `{num=10, size=70000, align=0}` on the table
left by `odp_pool_init_global`. -/
theorem C11_failed_create_binds_nothing_witness :
    ((odp_pool_create refConfig arena_grants_all (some "huge") (buffer_request 10 70000 0)
        (initial_table refConfig)).get (by decide)).2.pool.length
      = (initial_table refConfig).pool.length ∧
    ((odp_pool_create refConfig arena_grants_all (some "huge") (buffer_request 10 70000 0)
        (initial_table refConfig)).get (by decide)).2.pool.map
        (fun p => (p.rte_mempool, p.name, p.params))
      = (initial_table refConfig).pool.map (fun p => (p.rte_mempool, p.name, p.params)) :=
  C11_failed_create_binds_nothing refConfig arena_grants_all (some "huge")
    (buffer_request 10 70000 0) (initial_table refConfig) _ (by decide) (by decide)

/-- The slot choice while no slot lock is held: a request that the sizing switch
accepts and for which the arena grants the reservation binds the lowest-index
free slot `i` (every slot below `i` is bound), returns that slot's `pool_hdl` and
changes no other slot; when no slot is free the call returns `ODP_POOL_INVALID`
and leaves the table as it was. -/
theorem create_binds_lowest_free_slot_no_lock_held (cfg : Config)
    (arena : Option String → Nat → Nat → Nat → Bool) (name : Option String)
    (params : odp_pool_param_t) (tbl : pool_table_t) (hdr_size room num : Nat)
    (hlock : ∀ p ∈ tbl.pool, p.lock = false)
    (hs : switch_params cfg params = .sized hdr_size room num)
    (ha : arena name num (mb_size cfg hdr_size room) (cache_size cfg num) = true) :
    ((∃ p ∈ tbl.pool, p.rte_mempool = none) →
      ∃ i p mp, tbl.pool[i]? = some p ∧ p.rte_mempool = none ∧
        (∀ j q, j < i → tbl.pool[j]? = some q → q.rte_mempool.isSome = true) ∧
        odp_pool_create cfg arena name params tbl
          = some (p.pool_hdl, ⟨tbl.pool.set i (bound_slot cfg name params p mp)⟩)) ∧
    ((∀ p ∈ tbl.pool, p.rte_mempool.isSome = true) →
      odp_pool_create cfg arena name params tbl = some (ODP_POOL_INVALID, tbl)) := by
  constructor
  · intro hfree
    obtain ⟨pre, p, post, mp, he, hpre, hp, _, hr⟩ :=
      odp_pool_create_succeeds cfg arena name params tbl hdr_size room num hlock hfree hs ha
    refine ⟨pre.length, p, mp,
      by rw [he, List.getElem?_append_right (le_refl _)]; simp, hp, ?_, ?_⟩
    · intro j q hj hq
      rw [he, List.getElem?_append_left hj] at hq
      exact hpre q (List.getElem?_mem hq)
    · rw [hr, he]
      simp
  · intro hall
    unfold odp_pool_create
    rcases create_scan_returns cfg arena name params tbl.pool hlock with
      ⟨pre, p, post, he, _, hp, _⟩ | ⟨_, hr⟩
    · have := hall p (by rw [he]; simp)
      simp [hp] at this
    · rw [hr]

/-- The slot choice for the Packet request `{num=4, len=1500, seg_len=0}` on the
table left by `odp_pool_init_global`, whose lowest free slot is slot 0. -/
theorem create_binds_lowest_free_slot_no_lock_held_example :
    ((∃ p ∈ (initial_table refConfig).pool, p.rte_mempool = none) →
      ∃ i p mp, (initial_table refConfig).pool[i]? = some p ∧ p.rte_mempool = none ∧
        (∀ j q, j < i → (initial_table refConfig).pool[j]? = some q →
          q.rte_mempool.isSome = true) ∧
        odp_pool_create refConfig arena_grants_all (some "pkts") (packet_request 4 1500 0)
            (initial_table refConfig)
          = some (p.pool_hdl, ⟨(initial_table refConfig).pool.set i
              (bound_slot refConfig (some "pkts") (packet_request 4 1500 0) p mp)⟩)) ∧
    ((∀ p ∈ (initial_table refConfig).pool, p.rte_mempool.isSome = true) →
      odp_pool_create refConfig arena_grants_all (some "pkts") (packet_request 4 1500 0)
          (initial_table refConfig)
        = some (ODP_POOL_INVALID, initial_table refConfig)) :=
  create_binds_lowest_free_slot_no_lock_held refConfig arena_grants_all (some "pkts")
    (packet_request 4 1500 0) (initial_table refConfig)
    refConfig.sizeof_odp_packet_hdr_t 2176 4 (by decide) (by decide) rfl

/-! ## Slot exclusivity in sequential runs (claim C13) -/

/-- A call that returns either returned `ODP_POOL_INVALID` and left the
`rte_mempool` and handle of every slot as they were, or bound one free slot and
returned its handle. -/
theorem odp_pool_create_outcomes (cfg : Config)
    (arena : Option String → Nat → Nat → Nat → Bool) (name : Option String)
    (params : odp_pool_param_t) (tbl tbl' : pool_table_t) (hdl : odp_pool_t)
    (hr : odp_pool_create cfg arena name params tbl = some (hdl, tbl')) :
    (hdl = ODP_POOL_INVALID ∧
      tbl'.pool.map (fun p => (p.rte_mempool, p.pool_hdl))
        = tbl.pool.map (fun p => (p.rte_mempool, p.pool_hdl))) ∨
    (∃ pre p post mp, tbl.pool = pre ++ p :: post ∧ p.rte_mempool = none ∧
      hdl = p.pool_hdl ∧ tbl'.pool = pre ++ bound_slot cfg name params p mp :: post) := by
  unfold odp_pool_create at hr
  cases hsc : create_scan cfg arena name params tbl.pool with
  | none => simp [hsc] at hr
  | some r =>
    obtain ⟨h2, l2⟩ := r
    simp [hsc] at hr
    obtain ⟨rfl, rfl⟩ := hr
    rcases create_scan_cases cfg arena name params tbl.pool _ l2 hsc with
      ⟨_, hinv, hl⟩ | ⟨pre, p, post, he, _, hp, hh, hl⟩
    · left
      exact ⟨hinv, by rw [hl]⟩
    · rcases create_in_slot_cases cfg arena name params p hp with
        ⟨hinv, b, hb⟩ | ⟨_, _, _, mp, _, _, h1, h2'⟩
      · left
        refine ⟨by rw [hh, hinv], ?_⟩
        rw [hl, he, hb]
        simp
      · right
        exact ⟨pre, p, post, mp, he, hp, by rw [hh, h1], by rw [hl, h2']⟩

/-- One call keeps every slot's handle, keeps bound slots bound, and a valid handle
it returns is the handle of a slot that was free before and is bound after. -/
theorem odp_pool_create_step (cfg : Config)
    (arena : Option String → Nat → Nat → Nat → Bool) (name : Option String)
    (params : odp_pool_param_t) (tbl tbl' : pool_table_t) (hdl : odp_pool_t)
    (hr : odp_pool_create cfg arena name params tbl = some (hdl, tbl')) :
    tbl'.pool.map (fun p => p.pool_hdl) = tbl.pool.map (fun p => p.pool_hdl) ∧
    (∀ q ∈ tbl.pool, q.rte_mempool.isSome = true →
      ∃ q' ∈ tbl'.pool, q'.rte_mempool.isSome = true ∧ q'.pool_hdl = q.pool_hdl) ∧
    (hdl ≠ ODP_POOL_INVALID →
      (∃ q' ∈ tbl'.pool, q'.rte_mempool.isSome = true ∧ q'.pool_hdl = hdl) ∧
      hdl ∈ tbl.pool.map (fun p => p.pool_hdl) ∧
      ((tbl.pool.map (fun p => p.pool_hdl)).Nodup →
        ∀ q ∈ tbl.pool, q.rte_mempool.isSome = true → q.pool_hdl ≠ hdl)) := by
  rcases odp_pool_create_outcomes cfg arena name params tbl tbl' hdl hr with
    ⟨hinv, hmap⟩ | ⟨pre, p, post, mp, he, hp, hh, hl⟩
  · refine ⟨?_, ?_, fun hv => absurd hinv hv⟩
    · have := congrArg (List.map Prod.snd) hmap
      simpa [List.map_map] using this
    · intro q hq hb
      have hmem : (q.rte_mempool, q.pool_hdl)
          ∈ tbl'.pool.map (fun p => (p.rte_mempool, p.pool_hdl)) := by
        rw [hmap]
        exact List.mem_map.2 ⟨q, hq, rfl⟩
      obtain ⟨q', hq', heq⟩ := List.mem_map.1 hmem
      have h1 : q'.rte_mempool = q.rte_mempool := congrArg Prod.fst heq
      have h2 : q'.pool_hdl = q.pool_hdl := congrArg Prod.snd heq
      exact ⟨q', hq', by rw [h1]; exact hb, h2⟩
  · have hbs : (bound_slot cfg name params p mp).pool_hdl = p.pool_hdl := rfl
    have hbb : (bound_slot cfg name params p mp).rte_mempool.isSome = true := rfl
    refine ⟨?_, ?_, fun _ => ⟨?_, ?_, ?_⟩⟩
    · rw [hl, he]
      simp [hbs]
    · intro q hq hb
      rw [he] at hq
      rcases List.mem_append.1 hq with hq | hq
      · exact ⟨q, by rw [hl]; exact List.mem_append_left _ hq, hb, rfl⟩
      · rcases List.mem_cons.1 hq with rfl | hq
        · simp [hp] at hb
        · exact ⟨q, by rw [hl]; exact List.mem_append_right _ (List.mem_cons_of_mem _ hq),
            hb, rfl⟩
    · exact ⟨bound_slot cfg name params p mp, by rw [hl]; simp, hbb, by rw [hbs, hh]⟩
    · rw [he, hh]
      simp
    · intro hnd q hq hb
      rw [he] at hnd hq
      simp only [List.map_append, List.map_cons] at hnd
      have h1 := List.nodup_append.1 hnd
      have h2 := List.nodup_cons.1 h1.2.1
      rcases List.mem_append.1 hq with hq | hq
      · intro heq
        exact h1.2.2 (List.mem_map.2 ⟨q, hq, rfl⟩)
          (by rw [heq, hh]; exact List.mem_cons_self _ _)
      · rcases List.mem_cons.1 hq with rfl | hq
        · simp [hp] at hb
        · intro heq
          exact h2.1 (by rw [← hh, ← heq]; exact List.mem_map.2 ⟨q, hq, rfl⟩)

/-- The valid handles of a sequential run from a table with pairwise distinct slot
handles are pairwise distinct handles of slots that were free at the start. -/
theorem run_creates_valid_nodup (cfg : Config) :
    ∀ (calls : List create_call) (tbl : pool_table_t),
      (tbl.pool.map (fun p => p.pool_hdl)).Nodup →
      ((run_creates cfg calls tbl).filter (fun h => decide (h ≠ ODP_POOL_INVALID))).Nodup ∧
      ∀ x ∈ (run_creates cfg calls tbl).filter (fun h => decide (h ≠ ODP_POOL_INVALID)),
        x ∈ tbl.pool.map (fun p => p.pool_hdl) ∧
        ∀ q ∈ tbl.pool, q.rte_mempool.isSome = true → q.pool_hdl ≠ x := by
  intro calls
  induction calls with
  | nil => intro tbl _; simp [run_creates]
  | cons c rest ih =>
    intro tbl hnd
    unfold run_creates
    cases hr : odp_pool_create cfg c.arena c.name c.params tbl with
    | none => simp
    | some r =>
      obtain ⟨hdl, tbl'⟩ := r
      obtain ⟨hmap, hmono, hvalid⟩ :=
        odp_pool_create_step cfg c.arena c.name c.params tbl tbl' hdl hr
      obtain ⟨ihnd, ihmem⟩ := ih tbl' (by rw [hmap]; exact hnd)
      have hrest : ∀ x ∈ (run_creates cfg rest tbl').filter
          (fun h => decide (h ≠ ODP_POOL_INVALID)),
          x ∈ tbl.pool.map (fun p => p.pool_hdl) ∧
          ∀ q ∈ tbl.pool, q.rte_mempool.isSome = true → q.pool_hdl ≠ x := by
        intro x hx
        obtain ⟨h1, h2⟩ := ihmem x hx
        refine ⟨by rw [← hmap]; exact h1, ?_⟩
        intro q hq hb
        obtain ⟨q', hq', hb', he'⟩ := hmono q hq hb
        rw [← he']
        exact h2 q' hq' hb'
      simp only []
      by_cases hv : hdl = ODP_POOL_INVALID
      · rw [List.filter_cons_of_neg (by simp [hv])]
        exact ⟨ihnd, hrest⟩
      · rw [List.filter_cons_of_pos (by simp [hv])]
        obtain ⟨⟨q', hq', hb', he'⟩, hin, hfresh⟩ := hvalid hv
        refine ⟨List.nodup_cons.2 ⟨?_, ihnd⟩, ?_⟩
        · intro hmem
          exact (ihmem hdl hmem).2 q' hq' hb' he'
        · intro x hx
          rcases List.mem_cons.1 hx with rfl | hx
          · exact ⟨hin, hfresh hnd⟩
          · exact hrest x hx

/-- C13: starting from the table left by `odp_pool_init_global`, in every sequential
run of `odp_pool_create` calls (any requests, any answers of the arena) the valid
handles returned are pairwise distinct, each is the handle `pool_index_to_handle(i)`
of a slot `i < ODP_CONFIG_POOLS`, and slot handles are injective in the index. -/
theorem C13_valid_handles_distinct (cfg : Config) (calls : List create_call) :
    ((run_creates cfg calls (initial_table cfg)).filter
      (fun h => decide (h ≠ ODP_POOL_INVALID))).Nodup ∧
    (∀ x ∈ (run_creates cfg calls (initial_table cfg)).filter
        (fun h => decide (h ≠ ODP_POOL_INVALID)),
      ∃ i, i < cfg.ODP_CONFIG_POOLS ∧ x = pool_index_to_handle i) ∧
    (∀ i j, pool_index_to_handle i = pool_index_to_handle j → i = j) := by
  have hh : (initial_table cfg).pool.map (fun p => p.pool_hdl)
      = List.range cfg.ODP_CONFIG_POOLS := by
    simp [initial_table, List.map_map, Function.comp_def, pool_index_to_handle]
  obtain ⟨h1, h2⟩ := run_creates_valid_nodup cfg calls (initial_table cfg)
    (by rw [hh]; exact List.nodup_range _)
  refine ⟨h1, ?_, fun i j h => h⟩
  intro x hx
  have := (h2 x hx).1
  rw [hh] at this
  exact ⟨x, List.mem_range.1 this, rfl⟩

/-! ## `odp_pool_info` (claims C14, C15) -/

/-- C14: on a table whose slot `i` carries the handle `pool_index_to_handle(i)` (as
`odp_pool_init_global` sets it), after every `odp_pool_create(name, params)` that
returns a valid handle `h`, `odp_pool_info(h, info)` with a non-null `info` returns
0 with `info.params` equal to the supplied params and `info.name` equal to the
stored name: the empty string when `name` is `NULL`, else the first
`ODP_POOL_NAME_LEN - 1` characters of `name`. -/
theorem C14_info_after_create (cfg : Config)
    (arena : Option String → Nat → Nat → Nat → Bool) (name : Option String)
    (params : odp_pool_param_t) (tbl tbl' : pool_table_t) (hdl : odp_pool_t)
    (hidx : ∀ i p, tbl.pool[i]? = some p → p.pool_hdl = pool_index_to_handle i)
    (hr : odp_pool_create cfg arena name params tbl = some (hdl, tbl'))
    (hv : hdl ≠ ODP_POOL_INVALID) :
    odp_pool_info tbl' hdl false
      = (0, some { name := store_name cfg name, shm := .ODP_SHM_INVALID, params := params }) ∧
    store_name cfg name
      = (match name with
          | none => ""
          | some s => String.mk (s.data.take (cfg.ODP_POOL_NAME_LEN - 1))) ∧
    (store_name cfg name).length ≤ cfg.ODP_POOL_NAME_LEN - 1 := by
  obtain ⟨pre, p, post, _, _, _, mp, he, _, _, _, _, hh, hl⟩ :=
    odp_pool_create_valid_bound cfg arena name params tbl tbl' hdl hr hv
  have hp : tbl.pool[pre.length]? = some p := by
    rw [he, List.getElem?_append_right (le_refl _)]
    simp
  have hidx' : hdl = pre.length := by
    rw [hh, hidx pre.length p hp]
    rfl
  refine ⟨?_, ?_, ?_⟩
  · have hg : get_pool_entry tbl' (pool_handle_to_index hdl)
        = some (bound_slot cfg name params p mp) := by
      unfold get_pool_entry pool_handle_to_index
      rw [hidx', hl, List.getElem?_append_right (le_refl _)]
      simp
    simp [odp_pool_info, hg, bound_slot]
  · cases name <;> rfl
  · cases name with
    | none => simp [store_name]
    | some s =>
      simp only [store_name, String.length]
      exact le_trans (List.length_take_le _ _) (le_refl _)

/-- C14 (witness): `odp_pool_create("pkts", {num=4, len=1500, seg_len=0})` on the
table left by `odp_pool_init_global`, followed by `odp_pool_info`. -/
theorem C14_info_after_create_witness :
    odp_pool_info
        ((odp_pool_create refConfig arena_grants_all (some "pkts") (packet_request 4 1500 0)
          (initial_table refConfig)).get (by decide)).2 0 false
      = (0, some { name := store_name refConfig (some "pkts"), shm := .ODP_SHM_INVALID,
                   params := packet_request 4 1500 0 }) ∧
    store_name refConfig (some "pkts")
      = String.mk ("pkts".data.take (refConfig.ODP_POOL_NAME_LEN - 1)) ∧
    (store_name refConfig (some "pkts")).length ≤ refConfig.ODP_POOL_NAME_LEN - 1 :=
  C14_info_after_create refConfig arena_grants_all (some "pkts") (packet_request 4 1500 0)
    (initial_table refConfig) _ 0
    (by
      intro i p hp
      simp only [initial_table, List.getElem?_map] at hp
      rcases hi : (List.range refConfig.ODP_CONFIG_POOLS)[i]? with _ | j
      · simp [hi] at hp
      · simp [hi] at hp
        have hj : j = i := by
          have := List.getElem?_eq_some.1 hi
          obtain ⟨_, h2⟩ := this
          simpa using h2.symm
        rw [← hp, hj])
    (by decide) (by decide)

/-- C15 (counterexample): right after `odp_pool_init_global` slot 0 is free, and
`odp_pool_info` on its handle returns 0, with the empty name and zeroed params:
the function only tests the slot pointer, never whether the slot is bound. -/
theorem C15_info_on_free_slot_returns_0 :
    (get_pool_entry (initial_table refConfig) (pool_handle_to_index 0)).map
        (fun p => p.rte_mempool) = some none ∧
    odp_pool_info (initial_table refConfig) (pool_index_to_handle 0) false
      = (0, some { name := "", shm := .ODP_SHM_INVALID, params := zero_params }) := by
  decide

/-- C15 (amended): `odp_pool_info` returns -1, writing nothing, exactly when the
handle decodes to no slot of the table (index out of range) or `info` is `NULL`;
for every handle that decodes to a slot, bound or free, and a non-null `info` it
returns 0 with the slot's stored name and params. -/
theorem C15_info_fails_iff_no_slot (tbl : pool_table_t) (pool_hdl : odp_pool_t)
    (info_null : Bool) :
    ((odp_pool_info tbl pool_hdl info_null).1 = -1 ↔
      (tbl.pool.length ≤ pool_handle_to_index pool_hdl ∨ info_null = true)) ∧
    ((odp_pool_info tbl pool_hdl info_null).1 = -1 →
      (odp_pool_info tbl pool_hdl info_null).2 = none) ∧
    (∀ p, tbl.pool[pool_handle_to_index pool_hdl]? = some p → info_null = false →
      odp_pool_info tbl pool_hdl info_null
        = (0, some { name := p.name, shm := .ODP_SHM_INVALID, params := p.params })) := by
  cases hg : tbl.pool[pool_handle_to_index pool_hdl]? with
  | none =>
    have hlen := List.getElem?_eq_none_iff.1 hg
    have hi : odp_pool_info tbl pool_hdl info_null = (-1, none) := by
      simp [odp_pool_info, get_pool_entry, hg]
    rw [hi]
    simp [hlen]
  | some p =>
    have hlt : ¬ tbl.pool.length ≤ pool_handle_to_index pool_hdl := by
      obtain ⟨h, _⟩ := List.getElem?_eq_some.1 hg
      omega
    cases info_null with
    | true =>
      have hi : odp_pool_info tbl pool_hdl true = (-1, none) := by
        simp [odp_pool_info, get_pool_entry, hg]
      rw [hi]
      simp
    | false =>
      have hi : odp_pool_info tbl pool_hdl false
          = (0, some { name := p.name, shm := .ODP_SHM_INVALID, params := p.params }) := by
        simp [odp_pool_info, get_pool_entry, hg]
      rw [hi]
      simp [hlt]

/-! ## Constructed object headers (claim C16) -/

/-- What `rte_mempool_create` builds when it succeeds: the private area holds the
pool constructor argument and block `i` holds the header written by
`odp_dpdk_mbuf_ctor` for index `i`. -/
theorem rte_mempool_create_some (cfg : Config)
    (arena : Option String → Nat → Nat → Nat → Bool) (name : Option String)
    (n elt_size cache : Nat) (parg : mbuf_pool_ctor_arg) (marg : mbuf_ctor_arg)
    (mp : rte_mempool)
    (h : rte_mempool_create cfg arena name n elt_size cache cfg.sizeof_mbuf_pool_ctor_arg
      parg marg = some mp) :
    mp.n = n ∧ mp.priv = parg ∧ mp.elts.length = n ∧
    ∀ (i : Nat) (buf : odp_buffer_hdr_t), mp.elts[i]? = some buf →
      buf.index = i ∧ buf.pool_hdl = parg.pool_hdl ∧ buf.type = marg.type := by
  unfold rte_mempool_create at h
  by_cases ha : arena name n elt_size cache = true
  · simp only [ha, if_true, odp_dpdk_mbuf_pool_ctor, lt_irrefl, if_false] at h
    have hmp := (Option.some.inj h).symm
    subst hmp
    refine ⟨rfl, rfl, by simp, ?_⟩
    intro i buf hb
    simp only [List.getElem?_map] at hb
    rcases hi : (List.range n)[i]? with _ | j
    · simp [hi] at hb
    · simp [hi] at hb
      have hj : j = i := by
        obtain ⟨_, h2⟩ := List.getElem?_eq_some.1 hi
        simpa using h2.symm
      subst hb
      subst hj
      exact ⟨rfl, rfl, rfl⟩
  · simp [ha] at h

/-- C16: after every `odp_pool_create` that returns a valid handle `h` for a request
of kind `k = params->type`, the slot with handle `h` owns an arena whose private
area carries `pool_hdl = h` and whose `num` blocks were constructed so that block
`i` has `index = i`, `pool_hdl = h` and `type = k`; hence `odp_buffer_pool` of any
object of that arena returns `h`. -/
theorem C16_ctor_stamps_pool_handle (cfg : Config)
    (arena : Option String → Nat → Nat → Nat → Bool) (name : Option String)
    (params : odp_pool_param_t) (tbl tbl' : pool_table_t) (hdl : odp_pool_t)
    (hr : odp_pool_create cfg arena name params tbl = some (hdl, tbl'))
    (hv : hdl ≠ ODP_POOL_INVALID) :
    ∃ q mp, q ∈ tbl'.pool ∧ q.pool_hdl = hdl ∧ q.rte_mempool = some mp ∧
      mp.priv.pool_hdl = hdl ∧ mp.elts.length = mp.n ∧
      (∀ (i : Nat) (buf : odp_buffer_hdr_t), mp.elts[i]? = some buf →
        buf.index = i ∧ buf.pool_hdl = hdl ∧ buf.type = params.type) ∧
      (∀ buf ∈ mp.elts, odp_buffer_pool buf = hdl) := by
  obtain ⟨pre, p, post, hdr_size, room, num, mp, _, _, _, _, hm, hh, hl⟩ :=
    odp_pool_create_valid_bound cfg arena name params tbl tbl' hdl hr hv
  obtain ⟨hn, hpriv, hlen, helts⟩ := rte_mempool_create_some cfg arena name _ _ _ _ _ mp hm
  refine ⟨bound_slot cfg name params p mp, mp, by rw [hl]; simp, by rw [hh]; rfl, rfl,
    by rw [hpriv, hh], by rw [hlen, hn], ?_, ?_⟩
  · intro i buf hb
    obtain ⟨h1, h2, h3⟩ := helts i buf hb
    exact ⟨h1, by rw [h2, hh], h3⟩
  · intro buf hb
    obtain ⟨i, hi⟩ := List.getElem?_of_mem hb
    unfold odp_buffer_pool
    rw [(helts i buf hi).2.1, hh]

/-- C16 (witness): the Packet request `{num=4, len=1500, seg_len=0}` on the table
left by `odp_pool_init_global`, which returns the handle 0. -/
theorem C16_ctor_stamps_pool_handle_witness :
    ∃ q mp, q ∈ ((odp_pool_create refConfig arena_grants_all (some "pkts")
          (packet_request 4 1500 0) (initial_table refConfig)).get (by decide)).2.pool ∧
      q.pool_hdl = 0 ∧ q.rte_mempool = some mp ∧
      mp.priv.pool_hdl = 0 ∧ mp.elts.length = mp.n ∧
      (∀ (i : Nat) (buf : odp_buffer_hdr_t), mp.elts[i]? = some buf →
        buf.index = i ∧ buf.pool_hdl = 0 ∧ buf.type = (packet_request 4 1500 0).type) ∧
      (∀ buf ∈ mp.elts, odp_buffer_pool buf = 0) :=
  C16_ctor_stamps_pool_handle refConfig arena_grants_all (some "pkts")
    (packet_request 4 1500 0) (initial_table refConfig) _ 0 (by decide) (by decide)

/-! ## `odp_pool_destroy` (claim C17) -/

/-- C17: for every handle and every table, `odp_pool_destroy` ends in the abort
outcome: it yields no return value and no table state after the call. -/
theorem C17_destroy_always_aborts (tbl : pool_table_t) (pool_hdl : odp_pool_t) :
    odp_pool_destroy tbl pool_hdl = .aborted ∧
    ∀ v, odp_pool_destroy tbl pool_hdl ≠ .returned v := by
  have h : odp_pool_destroy tbl pool_hdl = .aborted := rfl
  refine ⟨h, fun v hv => ?_⟩
  rw [h] at hv
  cases hv

/-! ## Lock release (claim C18) -/

/-- The exit paths that do release the lock: on a table with no lock held, a call
whose sizing switch does not end in a plain `return ODP_POOL_INVALID` (bad type,
arena failure, success, no free slot) returns with no lock held. -/
theorem create_releases_lock_unless_plain_return (cfg : Config)
    (arena : Option String → Nat → Nat → Nat → Bool) (name : Option String)
    (params : odp_pool_param_t) (tbl tbl' : pool_table_t) (hdl : odp_pool_t)
    (hlock : ∀ p ∈ tbl.pool, p.lock = false)
    (hs : switch_params cfg params ≠ .return_invalid)
    (hr : odp_pool_create cfg arena name params tbl = some (hdl, tbl')) :
    ∀ p ∈ tbl'.pool, p.lock = false := by
  have hslot : ∀ p : pool_entry_s, (create_in_slot cfg arena name params p).2.lock = false := by
    intro p
    unfold create_in_slot
    cases hsw : switch_params cfg params with
    | return_invalid => exact absurd hsw hs
    | bad_type => rfl
    | sized hdr_size room num =>
      simp only []
      split <;> rfl
  unfold odp_pool_create at hr
  cases hsc : create_scan cfg arena name params tbl.pool with
  | none => simp [hsc] at hr
  | some r =>
    obtain ⟨h2, l2⟩ := r
    simp [hsc] at hr
    obtain ⟨rfl, rfl⟩ := hr
    rcases create_scan_cases cfg arena name params tbl.pool _ l2 hsc with
      ⟨_, _, hl⟩ | ⟨pre, p, post, he, _, _, _, hl⟩
    · simp only [hl]
      exact hlock
    · intro q hq
      simp only [hl] at hq
      rcases List.mem_append.1 hq with hq | hq
      · exact hlock q (by rw [he]; exact List.mem_append_left _ hq)
      · rcases List.mem_cons.1 hq with rfl | hq
        · exact hslot p
        · exact hlock q (by rw [he]; exact List.mem_append_right _ (List.mem_cons_of_mem _ hq))

/-- C18 (code defect, evaluated at the failing input): on the table left by
`odp_pool_init_global` no lock is held; the Buffer request `{num=1, size=64,
align=3}` is rejected by the alignment validation, whose `return ODP_POOL_INVALID`
(line 227) comes without `UNLOCK`: the call returns `ODP_POOL_INVALID` with the
lock of slot 0 held, and the next `odp_pool_create` spins on that lock and never
returns. -/
theorem C18_rejected_align_leaves_lock_held :
    (∀ p ∈ (initial_table refConfig).pool, p.lock = false) ∧
    (odp_pool_create refConfig arena_grants_all (some "bufs") (buffer_request 1 64 3)
        (initial_table refConfig)).map (fun r => (r.1, r.2.pool.map (fun p => p.lock)))
      = some (ODP_POOL_INVALID, true :: List.replicate 15 false) ∧
    ((odp_pool_create refConfig arena_grants_all (some "bufs") (buffer_request 1 64 3)
        (initial_table refConfig)).bind
      (fun r => odp_pool_create refConfig arena_grants_all (some "pkts")
        (packet_request 4 1500 0) r.2)).isNone = true := by
  decide

/-! ## Termination of the cache-size loop and divisors (claims C19, C20) -/

/-- For a 32-bit `num`, `num / 2 - j` iterations are enough for the loop started at
`j`: it ends with the value that `cache_loop` computes, `++j` never wraps, and the
body ran exactly for `j, j + 1, ..., num / 2 - 1`. -/
theorem cache_loop_trace_spec (num : Nat) (hnum : num < 4294967296) :
    ∀ (fuel j c : Nat), num / 2 - j ≤ fuel →
      cache_loop_trace num fuel j c
        = some (cache_loop num j c, List.range' j (num / 2 - j)) := by
  intro fuel
  induction fuel with
  | zero =>
    intro j c hf
    have hj : ¬ j < num / 2 := by omega
    have h0 : num / 2 - j = 0 := by omega
    rw [cache_loop, if_neg hj, h0]
    simp [cache_loop_trace, hj]
  | succ fuel ih =>
    intro j c hf
    by_cases hj : j < num / 2
    · have hw : (j + 1) % 4294967296 = j + 1 := Nat.mod_eq_of_lt (by omega)
      have hn : num / 2 - j = (num / 2 - (j + 1)) + 1 := by omega
      rw [cache_loop, if_pos hj]
      simp only [cache_loop_trace, if_pos hj, hw]
      rw [ih (j + 1) _ (by omega), hn, List.range'_succ]
    · have h0 : num / 2 - j = 0 := by omega
      rw [cache_loop, if_neg hj, h0]
      simp [cache_loop_trace, hj]

/-- C19: for every 32-bit object count `num`, the divisor search loop of lines
299-303, started at `j = num / CACHE_MAX`, terminates within `num / 2` iterations:
run with that bound it reaches its end, having executed its body
`num / 2 - num / CACHE_MAX` times, which is at most `num / 2`. -/
theorem C19_cache_loop_terminates (cfg : Config) (num : Nat) (hnum : num < 4294967296) :
    ∃ js, cache_loop_trace num (num / 2) (num / cfg.RTE_MEMPOOL_CACHE_MAX_SIZE)
        cfg.RTE_MEMPOOL_CACHE_MAX_SIZE
        = some (cache_loop num (num / cfg.RTE_MEMPOOL_CACHE_MAX_SIZE)
            cfg.RTE_MEMPOOL_CACHE_MAX_SIZE, js) ∧
      js.length = num / 2 - num / cfg.RTE_MEMPOOL_CACHE_MAX_SIZE ∧
      js.length ≤ num / 2 := by
  refine ⟨_, cache_loop_trace_spec num hnum _ _ _ (Nat.sub_le _ _), ?_, ?_⟩
  · simp
  · simp

/-- C19 (witness): `num = 32768` with `CACHE_MAX = 512`. -/
theorem C19_cache_loop_terminates_witness :
    (32768 : Nat) < 4294967296 ∧
    ∃ js, cache_loop_trace 32768 (32768 / 2) (32768 / refConfig.RTE_MEMPOOL_CACHE_MAX_SIZE)
        refConfig.RTE_MEMPOOL_CACHE_MAX_SIZE
        = some (cache_loop 32768 (32768 / refConfig.RTE_MEMPOOL_CACHE_MAX_SIZE)
            refConfig.RTE_MEMPOOL_CACHE_MAX_SIZE, js) ∧
      js.length = 32768 / 2 - 32768 / refConfig.RTE_MEMPOOL_CACHE_MAX_SIZE ∧
      js.length ≤ 32768 / 2 :=
  ⟨by decide, C19_cache_loop_terminates refConfig 32768 (by decide)⟩

/-- C20 (counterexample): in `uncappedConfig` the four constants named by the claim
are positive, yet for the Packet request `seg_len = 4294967153` the sum
`headroom + seg_len + tailroom + ODP_CONFIG_BUFFER_ALIGN_MIN - 1` is `2^32` and
wraps to 0, so the rounded `seg_len` is 0: it is the divisor of
`ODP_ALIGN_ROUNDUP(len, seg_len)` and of `blk_size / seg_len`. The same happens
without any wrap when `ODP_CONFIG_PACKET_SEG_LEN_MAX`, headroom and tailroom are
all 0 and a nonzero `seg_len` is requested. -/
theorem C20_rounded_seg_len_can_be_zero :
    0 < uncappedConfig.RTE_MEMPOOL_CACHE_MAX_SIZE ∧
    0 < uncappedConfig.ODP_CONFIG_BUFFER_ALIGN_MIN ∧
    0 < uncappedConfig.ODP_CACHE_LINE_SIZE ∧
    0 < uncappedConfig.ODP_CONFIG_PACKET_SEG_LEN_MIN ∧
    (packet_request 1 1500 4294967153).pkt.seg_len < 4294967296 ∧
    pkt_seg_len_effective uncappedConfig 4294967153 = 4294967153 ∧
    pkt_seg_len uncappedConfig 4294967153 = 0 ∧
    pkt_seg_len
      { refConfig with ODP_CONFIG_PACKET_SEG_LEN_MAX := 0, ODP_CONFIG_PACKET_HEADROOM := 0 }
      5 = 0 := by
  decide

/-- C20 (amended): when `CACHE_MAX`, `ODP_CONFIG_BUFFER_ALIGN_MIN`,
`ODP_CACHE_LINE_SIZE`, `ODP_CONFIG_PACKET_SEG_LEN_MIN` and
`ODP_CONFIG_PACKET_SEG_LEN_MAX` are positive and neither
`headroom + SEG_LEN_MIN + tailroom + ALIGN_MIN` nor
`headroom + SEG_LEN_MAX + tailroom + ALIGN_MIN` exceeds `2^32`, no divisor in
`odp_pool_create` is zero: the resolved `buf_align` is nonzero for every `align`,
the rounded packet `seg_len` is nonzero for every requested `seg_len`, and for
every 32-bit `num >= CACHE_MAX` every `j` for which the loop body runs is at
least 1. -/
theorem C20_no_zero_divisor (cfg : Config)
    (hcm : 0 < cfg.RTE_MEMPOOL_CACHE_MAX_SIZE)
    (hamin : 0 < cfg.ODP_CONFIG_BUFFER_ALIGN_MIN)
    (hcl : 0 < cfg.ODP_CACHE_LINE_SIZE)
    (hsmin : 0 < cfg.ODP_CONFIG_PACKET_SEG_LEN_MIN)
    (hsmax : 0 < cfg.ODP_CONFIG_PACKET_SEG_LEN_MAX)
    (hw1 : cfg.ODP_CONFIG_PACKET_HEADROOM + cfg.ODP_CONFIG_PACKET_SEG_LEN_MIN
      + cfg.ODP_CONFIG_PACKET_TAILROOM + cfg.ODP_CONFIG_BUFFER_ALIGN_MIN ≤ 4294967296)
    (hw2 : cfg.ODP_CONFIG_PACKET_HEADROOM + cfg.ODP_CONFIG_PACKET_SEG_LEN_MAX
      + cfg.ODP_CONFIG_PACKET_TAILROOM + cfg.ODP_CONFIG_BUFFER_ALIGN_MIN ≤ 4294967296) :
    (∀ align, 0 < buf_align cfg align) ∧
    (∀ seg_len, 0 < pkt_seg_len cfg seg_len) ∧
    (∀ num, cfg.RTE_MEMPOOL_CACHE_MAX_SIZE ≤ num → num < 4294967296 →
      ∃ js, cache_loop_trace num (num / 2) (num / cfg.RTE_MEMPOOL_CACHE_MAX_SIZE)
          cfg.RTE_MEMPOOL_CACHE_MAX_SIZE
          = some (cache_size cfg num, js) ∧ ∀ j ∈ js, 1 ≤ j) := by
  refine ⟨?_, ?_, ?_⟩
  · intro align
    unfold buf_align
    split
    · exact hcl
    · split
      · exact hamin
      · omega
  · intro seg_len
    have heff : 0 < pkt_seg_len_effective cfg seg_len ∧
        (pkt_seg_len_effective cfg seg_len ≤ cfg.ODP_CONFIG_PACKET_SEG_LEN_MIN ∨
          pkt_seg_len_effective cfg seg_len ≤ cfg.ODP_CONFIG_PACKET_SEG_LEN_MAX) := by
      unfold pkt_seg_len_effective
      split
      · exact ⟨hsmin, Or.inl (le_refl _)⟩
      · split
        · exact ⟨by omega, Or.inr (by assumption)⟩
        · exact ⟨hsmax, Or.inr (le_refl _)⟩
    unfold pkt_seg_len
    have hge := ODP_ALIGN_ROUNDUP_ge
      (cfg.ODP_CONFIG_PACKET_HEADROOM + pkt_seg_len_effective cfg seg_len
        + cfg.ODP_CONFIG_PACKET_TAILROOM)
      cfg.ODP_CONFIG_BUFFER_ALIGN_MIN hamin (by omega)
    omega
  · intro num hge hnum
    have hc : cache_size cfg num
        = cache_loop num (num / cfg.RTE_MEMPOOL_CACHE_MAX_SIZE)
            cfg.RTE_MEMPOOL_CACHE_MAX_SIZE := by
      simp [cache_size, hge]
    refine ⟨_, by rw [hc]; exact cache_loop_trace_spec num hnum _ _ _ (Nat.sub_le _ _), ?_⟩
    intro j hj
    have hstart : 1 ≤ num / cfg.RTE_MEMPOOL_CACHE_MAX_SIZE :=
      (Nat.one_le_div_iff hcm).2 hge
    have := (List.mem_range'_1.1 hj).1
    omega

/-- C20 (witness): the reference configuration. -/
theorem C20_no_zero_divisor_witness :
    (∀ align, 0 < buf_align refConfig align) ∧
    (∀ seg_len, 0 < pkt_seg_len refConfig seg_len) ∧
    (∀ num, refConfig.RTE_MEMPOOL_CACHE_MAX_SIZE ≤ num → num < 4294967296 →
      ∃ js, cache_loop_trace num (num / 2) (num / refConfig.RTE_MEMPOOL_CACHE_MAX_SIZE)
          refConfig.RTE_MEMPOOL_CACHE_MAX_SIZE
          = some (cache_size refConfig num, js) ∧ ∀ j ∈ js, 1 ≤ j) :=
  C20_no_zero_divisor refConfig (by decide) (by decide) (by decide) (by decide) (by decide)
    (by decide) (by decide)

/-! ## Buffer payload and alignment in the arena (claim C6) -/

/-- What `rte_mempool_create` hands to the arena when it succeeds: the stride, the
count and the cache size are the arguments, and every constructed object has its
buffer at `seg_buf_offset` with length `seg_buf_size`. -/
theorem rte_mempool_create_layout (cfg : Config)
    (arena : Option String → Nat → Nat → Nat → Bool) (name : Option String)
    (n elt_size cache priv_size : Nat) (parg : mbuf_pool_ctor_arg) (marg : mbuf_ctor_arg)
    (mp : rte_mempool)
    (h : rte_mempool_create cfg arena name n elt_size cache priv_size parg marg = some mp) :
    mp.elt_size = elt_size ∧ mp.n = n ∧ mp.cache_size = cache ∧
    ∀ buf ∈ mp.elts, buf.buf_addr = marg.seg_buf_offset ∧ buf.buf_len = marg.seg_buf_size := by
  unfold rte_mempool_create at h
  by_cases ha : arena name n elt_size cache = true
  · simp only [ha, if_true] at h
    have hmp := (Option.some.inj h).symm
    subst hmp
    refine ⟨?_, ?_, ?_, ?_⟩
    · unfold odp_dpdk_mbuf_pool_ctor
      split <;> rfl
    · unfold odp_dpdk_mbuf_pool_ctor
      split <;> rfl
    · unfold odp_dpdk_mbuf_pool_ctor
      split <;> rfl
    · intro buf hb
      obtain ⟨i, _, rfl⟩ := List.mem_map.1 hb
      exact ⟨rfl, rfl⟩
  · simp [ha] at h

/-- C6 (counterexample): the Buffer request `{num=1, size=10, align=0}` succeeds at
the reference configuration and returns the handle 0; the arena bound to slot 0
has the object stride `elt_size = 138` and its object has the buffer at offset 128
(the header size) with length 10. The resolved alignment is the cache-line size
64, and the payload size `138 - 128 = 10` is not a multiple of it: small buffers
with the default alignment are left unrounded. -/
theorem C6_small_buffer_not_aligned :
    (odp_pool_create refConfig arena_grants_all (some "small")
        (buffer_request 1 10 0) (initial_table refConfig)).map
      (fun r => (r.1, (r.2.pool.head?.bind (fun q => q.rte_mempool)).map
        (fun mp => (mp.elt_size, mp.elts.map (fun b => (b.buf_addr, b.buf_len))))))
      = some (0, some (138, [(128, 10)])) ∧
    (0 : odp_pool_t) ≠ ODP_POOL_INVALID ∧
    seg_buf_offset refConfig refConfig.sizeof_odp_buffer_hdr_t = 128 ∧
    buf_align refConfig 0 = 64 ∧
    ¬ (buf_align refConfig 0 ∣ 138 - 128) := by
  decide

/-- C6 (amended): when the alignment constants are powers of two with
`ODP_CONFIG_BUFFER_ALIGN_MIN <= ODP_CACHE_LINE_SIZE`, every Buffer request (with a
32-bit `align`) on which `odp_pool_create` succeeds has a resolved alignment
`buf_align` that is a power of two and at least `ODP_CONFIG_BUFFER_ALIGN_MIN`; the
slot of the returned handle owns an arena whose objects have their buffer at
`seg_buf_offset` (the header size) with length `blk_size`, and whose object stride
`elt_size` satisfies `elt_size - seg_buf_offset = blk_size`; this payload size is a
multiple of `buf_align` whenever `size > ODP_MAX_INLINE_BUF` or a nonzero `align`
was requested, and it is the requested `size`, unrounded, when
`size <= ODP_MAX_INLINE_BUF` and `align = 0`. -/
theorem C6_buffer_alignment (cfg : Config)
    (arena : Option String → Nat → Nat → Nat → Bool) (name : Option String)
    (params : odp_pool_param_t) (tbl tbl' : pool_table_t) (hdl : odp_pool_t)
    (htype : params.type = ODP_POOL_BUFFER)
    (h32 : params.buf.align < 4294967296)
    (hmin : ∃ a, cfg.ODP_CONFIG_BUFFER_ALIGN_MIN = 2 ^ a)
    (hcl : ∃ b, cfg.ODP_CACHE_LINE_SIZE = 2 ^ b)
    (hle : cfg.ODP_CONFIG_BUFFER_ALIGN_MIN ≤ cfg.ODP_CACHE_LINE_SIZE)
    (hr : odp_pool_create cfg arena name params tbl = some (hdl, tbl'))
    (hv : hdl ≠ ODP_POOL_INVALID) :
    (∃ k, buf_align cfg params.buf.align = 2 ^ k) ∧
    cfg.ODP_CONFIG_BUFFER_ALIGN_MIN ≤ buf_align cfg params.buf.align ∧
    ∃ q mp, q ∈ tbl'.pool ∧ q.pool_hdl = hdl ∧ q.rte_mempool = some mp ∧
      (∀ buf ∈ mp.elts,
        buf.buf_addr = seg_buf_offset cfg cfg.sizeof_odp_buffer_hdr_t ∧
        buf.buf_len = buf_blk_size cfg params.buf.size params.buf.align) ∧
      mp.elt_size - seg_buf_offset cfg cfg.sizeof_odp_buffer_hdr_t
        = buf_blk_size cfg params.buf.size params.buf.align ∧
      ((params.buf.size > cfg.ODP_MAX_INLINE_BUF ∨ params.buf.align ≠ 0) →
        buf_align cfg params.buf.align ∣
          mp.elt_size - seg_buf_offset cfg cfg.sizeof_odp_buffer_hdr_t) ∧
      ((params.buf.size ≤ cfg.ODP_MAX_INLINE_BUF ∧ params.buf.align = 0) →
        mp.elt_size - seg_buf_offset cfg cfg.sizeof_odp_buffer_hdr_t = params.buf.size) := by
  obtain ⟨pre, p, post, hdr_size, room, num, mp, _, _, _, hs, hm, hh, hl⟩ :=
    odp_pool_create_valid_bound cfg arena name params tbl tbl' hdl hr hv
  rw [switch_params_buffer cfg params htype] at hs
  by_cases hrej : buf_align_rejected cfg params.buf.align = true
  · simp [hrej] at hs
  by_cases hbig : buf_blk_size cfg params.buf.size params.buf.align > UINT16_MAX
  · simp [hrej, hbig] at hs
  simp only [hrej, hbig, if_false, Bool.false_eq_true] at hs
  have hinj := switch_result.sized.inj hs
  obtain ⟨rfl, rfl, rfl⟩ := hinj
  have hblk : buf_blk_size cfg params.buf.size params.buf.align ≤ 65535 := by
    unfold UINT16_MAX at hbig
    omega
  have hmod : buf_blk_size cfg params.buf.size params.buf.align % 65536
      = buf_blk_size cfg params.buf.size params.buf.align := Nat.mod_eq_of_lt (by omega)
  have hpow : params.buf.align = 0 ∨ ∃ k, params.buf.align = 2 ^ k := by
    apply (rounddown_self_iff params.buf.align h32).1
    by_contra hne
    apply hrej
    simp [buf_align_rejected, hne]
  obtain ⟨helt, _, _, hbufs⟩ := rte_mempool_create_layout cfg arena name _ _ _ _ _ _ mp hm
  have hpay : mp.elt_size - seg_buf_offset cfg cfg.sizeof_odp_buffer_hdr_t
      = buf_blk_size cfg params.buf.size params.buf.align := by
    rw [helt, hmod]
    exact mb_size_sub_offset cfg _ _ hblk
  refine ⟨?_, ?_, bound_slot cfg name params p mp, mp, by rw [hl]; simp, by rw [hh]; rfl,
    rfl, ?_, hpay, ?_, ?_⟩
  · unfold buf_align
    split
    · exact hcl
    · split
      · exact hmin
      · rcases hpow with h0 | hk
        · contradiction
        · exact hk
  · unfold buf_align
    split
    · exact hle
    · split
      · exact le_refl _
      · omega
  · intro buf hb
    obtain ⟨h1, h2⟩ := hbufs buf hb
    refine ⟨h1, ?_⟩
    rw [h2]
    simp only []
    rw [hmod, hmod]
  · intro hround
    rw [hpay]
    unfold buf_blk_size
    rw [if_pos hround]
    exact ODP_ALIGN_ROUNDUP_dvd _ _
  · intro hsmall
    rw [hpay]
    unfold buf_blk_size
    rw [if_neg (by omega)]

/-- C6 (witness): the Buffer request `{num=4, size=100, align=32}` on the table left
by `odp_pool_init_global`, which returns the handle 0. -/
theorem C6_buffer_alignment_witness :
    (∃ k, buf_align refConfig 32 = 2 ^ k) ∧
    refConfig.ODP_CONFIG_BUFFER_ALIGN_MIN ≤ buf_align refConfig 32 ∧
    ∃ q mp, q ∈ ((odp_pool_create refConfig arena_grants_all (some "bufs")
          (buffer_request 4 100 32) (initial_table refConfig)).get (by decide)).2.pool ∧
      q.pool_hdl = 0 ∧ q.rte_mempool = some mp ∧
      (∀ buf ∈ mp.elts,
        buf.buf_addr = seg_buf_offset refConfig refConfig.sizeof_odp_buffer_hdr_t ∧
        buf.buf_len = buf_blk_size refConfig 100 32) ∧
      mp.elt_size - seg_buf_offset refConfig refConfig.sizeof_odp_buffer_hdr_t
        = buf_blk_size refConfig 100 32 ∧
      (((100 : Nat) > refConfig.ODP_MAX_INLINE_BUF ∨ (32 : Nat) ≠ 0) →
        buf_align refConfig 32 ∣
          mp.elt_size - seg_buf_offset refConfig refConfig.sizeof_odp_buffer_hdr_t) ∧
      (((100 : Nat) ≤ refConfig.ODP_MAX_INLINE_BUF ∧ (32 : Nat) = 0) →
        mp.elt_size - seg_buf_offset refConfig refConfig.sizeof_odp_buffer_hdr_t = 100) :=
  C6_buffer_alignment refConfig arena_grants_all (some "bufs") (buffer_request 4 100 32)
    (initial_table refConfig) _ 0 rfl (by decide) ⟨4, by decide⟩ ⟨6, by decide⟩
    (by decide) (by decide) (by decide)

/-! ## Calls on a table with a leaked lock (claims C7, C12) -/

/-- C7 (code defect, evaluated at the failing input): the Buffer request
`{num=8, size=256, align=8192}` has `align > ODP_CONFIG_BUFFER_ALIGN_MAX = 4096`,
the validation of lines 225-226 rejects it, and on the table left by
`odp_pool_init_global` the call returns `ODP_POOL_INVALID`. But that rejection
returns at line 227 without `UNLOCK`: after a first rejected create
(`{num=1, size=64, align=8192}`) slot 0 is still free and its lock is held, and on
this table with a free slot the same kind of request does not return
`ODP_POOL_INVALID`: the call spins on the lock of slot 0 and never returns. -/
theorem C7_rejected_align_never_returns_after_leak :
    refConfig.ODP_CONFIG_BUFFER_ALIGN_MAX < (buffer_request 8 256 8192).buf.align ∧
    buf_align_rejected refConfig 8192 = true ∧
    (odp_pool_create refConfig arena_grants_all (some "bufs") (buffer_request 8 256 8192)
        (initial_table refConfig)).map Prod.fst = some ODP_POOL_INVALID ∧
    (odp_pool_create refConfig arena_grants_all (some "bufs") (buffer_request 1 64 8192)
        (initial_table refConfig)).map
      (fun r => (r.1, r.2.pool.map (fun p => (p.rte_mempool.isSome, p.lock))))
      = some (ODP_POOL_INVALID, (false, true) :: List.replicate 15 (false, false)) ∧
    (odp_pool_create refConfig arena_grants_all (some "bufs") (buffer_request 1 64 8192)
        (initial_table refConfig)).bind
      (fun r => odp_pool_create refConfig arena_grants_all (some "bufs")
        (buffer_request 8 256 8192) r.2) = none := by
  decide

/-- C12 (code defect, evaluated at the failing input): after a rejected create
(`{num=1, size=64, align=8192}`, which returns at line 227 without `UNLOCK`) the
lowest-index free slot of the table is slot 0 and its lock is held. The Packet
request `{num=4, len=1500, seg_len=0}` passes the sizing switch and the arena
grants every reservation (on the table left by `odp_pool_init_global` the same
call binds slot 0 and returns its handle 0), yet on this table `odp_pool_create`
does not bind slot 0: it spins on the lock of slot 0 and never returns. -/
theorem C12_valid_create_never_returns_after_leak :
    switch_params refConfig (packet_request 4 1500 0)
      = .sized refConfig.sizeof_odp_packet_hdr_t 2176 4 ∧
    (odp_pool_create refConfig arena_grants_all (some "pkts") (packet_request 4 1500 0)
        (initial_table refConfig)).map Prod.fst = some 0 ∧
    (odp_pool_create refConfig arena_grants_all (some "bufs") (buffer_request 1 64 8192)
        (initial_table refConfig)).map
      (fun r => (r.1, r.2.pool.map (fun p => (p.rte_mempool.isSome, p.lock))))
      = some (ODP_POOL_INVALID, (false, true) :: List.replicate 15 (false, false)) ∧
    (odp_pool_create refConfig arena_grants_all (some "bufs") (buffer_request 1 64 8192)
        (initial_table refConfig)).bind
      (fun r => odp_pool_create refConfig arena_grants_all (some "pkts")
        (packet_request 4 1500 0) r.2) = none := by
  decide

end OdpPool
